import Mathlib

/-!
Verification development for the `oqr` query library.

The development shallowly embeds the library's data model and operations:

* `J` models the plain Python values (dicts, lists, scalars) that serialized
  query bodies are made of.  Python dicts are represented as insertion-ordered
  association lists with string keys; the code under verification only ever
  looks keys up and takes the first item, so this matches dict semantics for
  the unique-key dicts the library builds.
* `QueryCondition`, `Limit`, `ScriptScore`, `QueryConditionWithScoring` and
  the `Query` combinators embed `query.py`.
* `MongoQueryCondition.make`, `_parse_mongo_query` and `_convert_filter`
  embed `mongostyle.py`.  Since `_parse_mongo_query` mutates its input dict
  (`dict.pop`), the embedding returns the resulting state of the input
  mapping alongside the parsed condition.
* `NodeType`, `_query_to_tree`, `_normalize_tree`, `_reduce_double_negation`,
  `flatten_logical_nodes`, `_tree_to_string` and `normalized_readable_query`
  embed `normalization.py`.

Python raises exceptions; fallible operations are embedded in `Except Err`.
Functions whose Python originals recurse through data reached by dictionary
lookup (not a structural subterm) are defined with an explicit fuel parameter
together with a computable fuel bound that dominates the actual recursion
depth, so every definition is executable.
-/

/-- Plain data values: the Python scalars, lists and string-keyed dicts that
query bodies consist of.  `float n` models the Python floats produced by the
library, all of which are of integral value (`float(v)` for an int `v`);
the embedding is exact for the values below `2 ** 53`. -/
inductive J where
  | null
  | bool (b : Bool)
  | int (n : Int)
  | float (n : Int)
  | str (s : String)
  | arr (xs : List J)
  | obj (fields : List (String × J))

/-- Python exceptions raised by the library. -/
inductive Err where
  | typeError (msg : String)
  | valueError (msg : String)
  | keyError (msg : String)
  | invalidOpenSearchOperation (msg : String) (operation : J)

/-- List-returning `mapM` over `Except`, written by structural recursion so
that it evaluates by `rfl`; it models a Python loop or comprehension that
propagates the first exception. -/
def mapME {α β : Type} (f : α → Except Err β) : List α → Except Err (List β)
  | [] => .ok []
  | x :: xs =>
    match f x with
    | .error e => .error e
    | .ok y =>
      match mapME f xs with
      | .error e => .error e
      | .ok ys => .ok (y :: ys)

mutual

/-- Python `repr` of a value (`str` and `repr` agree except on strings).
String escaping is not modelled: the library's fields and values are plain
text. -/
def pyRepr : J → String
  | .null => "None"
  | .bool b => if b then "True" else "False"
  | .int n => toString n
  | .float n => toString n ++ ".0"
  | .str s => "\x27" ++ s ++ "\x27"
  | .arr xs => "[" ++ String.intercalate ", " (pyReprList xs) ++ "]"
  | .obj fields => "\x7b" ++ String.intercalate ", " (pyReprFields fields) ++ "\x7d"

def pyReprList : List J → List String
  | [] => []
  | x :: xs => pyRepr x :: pyReprList xs

def pyReprFields : List (String × J) → List String
  | [] => []
  | (k, v) :: fs => ("\x27" ++ k ++ "\x27: " ++ pyRepr v) :: pyReprFields fs

end

/-- Python `str` of a value, as used by f-string interpolation. -/
def pyStr : J → String
  | .str s => s
  | v => pyRepr v

/-- Python `str(type(x))`, used in error messages. -/
def pyTypeName : J → String
  | .null => "<class \x27NoneType\x27>"
  | .bool _ => "<class \x27bool\x27>"
  | .int _ => "<class \x27int\x27>"
  | .float _ => "<class \x27float\x27>"
  | .str _ => "<class \x27str\x27>"
  | .arr _ => "<class \x27list\x27>"
  | .obj _ => "<class \x27dict\x27>"

/-- Python truthiness of a value. -/
def pyTruthy : J → Bool
  | .null => false
  | .bool b => b
  | .int n => n != 0
  | .float n => n != 0
  | .str s => s != ""
  | .arr xs => !xs.isEmpty
  | .obj fields => !fields.isEmpty

/-- Python code-point comparison of character lists (the order `str` uses). -/
def charListLt : List Char → List Char → Bool
  | [], [] => false
  | [], _ :: _ => true
  | _ :: _, [] => false
  | a :: as, b :: bs =>
    if a.toNat < b.toNat then true
    else if b.toNat < a.toNat then false
    else charListLt as bs

/-- Python `<` on strings: lexicographic by code point. -/
def pyStrLt (a b : String) : Bool := charListLt a.data b.data

/-- Python `<=` on strings. -/
def pyStrLe (a b : String) : Bool := !(pyStrLt b a)

/-- Inserts a string into an already sorted list, before any equal element. -/
def insertSorted (x : String) : List String → List String
  | [] => [x]
  | y :: ys => if pyStrLe x y then x :: y :: ys else y :: insertSorted x ys

/-- Python `sorted` on a list of strings: stable ascending sort.  (Insertion
sort; on a total order such as the string order the result agrees with any
stable sort, so this models `sorted` exactly.) -/
def sortStrings : List String → List String
  | [] => []
  | x :: xs => insertSorted x (sortStrings xs)

/-- Embeds `query.py` `QueryCondition.__init__`: all four attributes default
to Python `None`, modelled by `Option`/`J.null`. -/
structure QueryCondition where
  field : Option String
  value : J
  operator : Option String
  boost : Option J

/-- The dict key a condition's field becomes in a serialized leaf.  A `None`
field would become the Python `None` key; the library always sets the field
of a leaf condition, so the `"None"` stand-in is never reached. -/
def QueryCondition.fieldKey (self : QueryCondition) : String :=
  match self.field with
  | some f => f
  | none => "None"

/-- The condition's field as a value (for `exists` serialization). -/
def QueryCondition.fieldJ (self : QueryCondition) : J :=
  match self.field with
  | some f => .str f
  | none => .null

/-- Embeds `QueryCondition._build_query`. -/
def QueryCondition._build_query (self : QueryCondition) : Except Err J :=
  match self.operator with
  | some "term" => .ok (J.obj [("term", J.obj [(self.fieldKey, self.value)])])
  | some "range" => .ok (J.obj [("range", J.obj [(self.fieldKey, self.value)])])
  | some "terms" => .ok (J.obj [("terms", J.obj [(self.fieldKey, self.value)])])
  | some "exists" => .ok (J.obj [("exists", J.obj [("field", self.fieldJ)])])
  | some "bool" => .ok (J.obj [("bool", self.value)])
  | some "match_all" => .ok (J.obj [("match_all", J.obj [])])
  | op =>
    .error (.valueError ("Unsupported operator: " ++
      (match op with | some s => s | none => "None")))

/-- Embeds `QueryCondition.to_dict`. -/
def QueryCondition.to_dict (self : QueryCondition) : Except Err J :=
  self._build_query

/-- Embeds `Query.and_`.  The Python function is variadic and unpacks a single
list argument; the embedding takes the list of conditions directly.  The
`_validate_conditions` type check cannot fire in the typed embedding. -/
def Query.and_ (conditions : List QueryCondition) : Except Err QueryCondition :=
  match mapME QueryCondition.to_dict conditions with
  | .error e => .error e
  | .ok dicts => .ok ⟨none, J.obj [("must", J.arr dicts)], some "bool", none⟩

/-- Embeds `Query.or_`. -/
def Query.or_ (conditions : List QueryCondition) : Except Err QueryCondition :=
  match mapME QueryCondition.to_dict conditions with
  | .error e => .error e
  | .ok dicts => .ok ⟨none, J.obj [("should", J.arr dicts)], some "bool", none⟩

/-- Embeds `Query.not_`. -/
def Query.not_ (condition : QueryCondition) : Except Err QueryCondition :=
  match condition.to_dict with
  | .error e => .error e
  | .ok d => .ok ⟨none, J.obj [("must_not", J.arr [d])], some "bool", none⟩

/-- Embeds `QueryCondition.__lt__`. -/
def QueryCondition.lt_ (self : QueryCondition) (other : J) : QueryCondition :=
  ⟨self.field, J.obj [("lt", other)], some "range", none⟩

/-- Embeds `QueryCondition.__gt__`. -/
def QueryCondition.gt_ (self : QueryCondition) (other : J) : QueryCondition :=
  ⟨self.field, J.obj [("gt", other)], some "range", none⟩

/-- Embeds `QueryCondition.__le__`. -/
def QueryCondition.le_ (self : QueryCondition) (other : J) : QueryCondition :=
  ⟨self.field, J.obj [("lte", other)], some "range", none⟩

/-- Embeds `QueryCondition.__ge__`. -/
def QueryCondition.ge_ (self : QueryCondition) (other : J) : QueryCondition :=
  ⟨self.field, J.obj [("gte", other)], some "range", none⟩

/-- Embeds `QueryCondition.__eq__`.  Python's `isinstance(other, (int, float))`
is true for `bool` as well (`bool` is a subclass of `int`), with
`float(True) = 1.0` and `int(True) = 1`.  `int(x)` of an integral float `x`
is its value. -/
def QueryCondition.eq_ (self : QueryCondition) (other : J) : Except Err QueryCondition :=
  match other with
  | .int n =>
    Query.or_ [⟨self.field, .float n, some "term", none⟩,
               ⟨self.field, .int n, some "term", none⟩]
  | .float n =>
    Query.or_ [⟨self.field, .float n, some "term", none⟩,
               ⟨self.field, .int n, some "term", none⟩]
  | .bool b =>
    Query.or_ [⟨self.field, .float (if b then 1 else 0), some "term", none⟩,
               ⟨self.field, .int (if b then 1 else 0), some "term", none⟩]
  | .str s => .ok ⟨self.field, .str s, some "term", none⟩
  | v =>
    .error (.typeError ("Unsupported type for equality comparison: " ++
      pyTypeName v ++ ". Must be int, float, or str."))

/-- Embeds `Index.__getattr__` / `Index.__getitem__`: a field reference is a
`QueryCondition` with only the field set. -/
def fieldRef (field : String) : QueryCondition :=
  ⟨some field, .null, none, none⟩

/-- Embeds `Limit.__init__`. -/
structure Limit where
  limit : Int

/-- Embeds `ScriptScore.__init__` (`params=None` defaults to `{}`). -/
structure ScriptScore where
  script : String
  params : List (String × J)

/-- Embeds `QueryConditionWithScoring` attributes.  Values are only produced
through `QueryConditionWithScoring.init` and the combination operations. -/
structure QueryConditionWithScoring where
  condition : QueryCondition
  and_scorers : List ScriptScore
  or_scorers : List ScriptScore
  limit : Option Limit

/-- Message of the scorer-conflict `ValueError`. -/
def scorerConflictMsg : String :=
  "Cannot have both \x27and_scorers\x27 and \x27or_scorers\x27 at the same time."

/-- Embeds `QueryConditionWithScoring.__init__`: `and_scorers or []` collapses
`None` and `[]` alike, so the embedding takes plain lists; the constructor
fails when both scorer lists are non-empty. -/
def QueryConditionWithScoring.init (condition : QueryCondition)
    (and_scorers : List ScriptScore) (or_scorers : List ScriptScore)
    (limit : Option Limit) : Except Err QueryConditionWithScoring :=
  if !and_scorers.isEmpty && !or_scorers.isEmpty then
    .error (.valueError scorerConflictMsg)
  else
    .ok ⟨condition, and_scorers, or_scorers, limit⟩

/-- Embeds the `isinstance(other, QueryCondition)` case of
`QueryConditionWithScoring.__and__`. -/
def QueryConditionWithScoring.and_condition (self : QueryConditionWithScoring)
    (other : QueryCondition) : Except Err QueryConditionWithScoring :=
  match Query.and_ [self.condition, other] with
  | .error e => .error e
  | .ok c => QueryConditionWithScoring.init c self.and_scorers self.or_scorers self.limit

/-- Embeds the `isinstance(other, ScriptScore)` case of
`QueryConditionWithScoring.__and__`. -/
def QueryConditionWithScoring.and_scorer (self : QueryConditionWithScoring)
    (other : ScriptScore) : Except Err QueryConditionWithScoring :=
  if !self.or_scorers.isEmpty then
    .error (.valueError "Cannot add \x27and_scorers\x27 when \x27or_scorers\x27 already exist.")
  else
    QueryConditionWithScoring.init self.condition (self.and_scorers ++ [other])
      self.or_scorers self.limit

/-- Embeds the `isinstance(other, Limit)` case of
`QueryConditionWithScoring.__and__`. -/
def QueryConditionWithScoring.and_limit (self : QueryConditionWithScoring)
    (other : Limit) : Except Err QueryConditionWithScoring :=
  QueryConditionWithScoring.init self.condition self.and_scorers self.or_scorers
    (some (match self.limit with
           | none => other
           | some l => ⟨min l.limit other.limit⟩))

/-- Embeds the `isinstance(other, QueryConditionWithScoring)` case of
`QueryConditionWithScoring.__and__`. -/
def QueryConditionWithScoring.and_wrapper (self other : QueryConditionWithScoring) :
    Except Err QueryConditionWithScoring :=
  match Query.and_ [self.condition, other.condition] with
  | .error e => .error e
  | .ok combined_condition =>
    let combined_and_scorers := self.and_scorers ++ other.and_scorers
    let combined_or_scorers := self.or_scorers ++ other.or_scorers
    if !combined_and_scorers.isEmpty && !combined_or_scorers.isEmpty then
      .error (.valueError scorerConflictMsg)
    else
      let combined_limit : Option Limit :=
        match self.limit, other.limit with
        | some a, some b => some ⟨min a.limit b.limit⟩
        | some a, none => some a
        | none, b => b
      QueryConditionWithScoring.init combined_condition combined_and_scorers
        combined_or_scorers combined_limit

/-- Embeds the `isinstance(other, QueryCondition)` case of
`QueryConditionWithScoring.__or__`. -/
def QueryConditionWithScoring.or_condition (self : QueryConditionWithScoring)
    (other : QueryCondition) : Except Err QueryConditionWithScoring :=
  match Query.or_ [self.condition, other] with
  | .error e => .error e
  | .ok c => QueryConditionWithScoring.init c self.and_scorers self.or_scorers self.limit

/-- Embeds the `isinstance(other, ScriptScore)` case of
`QueryConditionWithScoring.__or__`. -/
def QueryConditionWithScoring.or_scorer (self : QueryConditionWithScoring)
    (other : ScriptScore) : Except Err QueryConditionWithScoring :=
  if !self.and_scorers.isEmpty then
    .error (.valueError "Cannot add \x27or_scorers\x27 when \x27and_scorers\x27 already exist.")
  else
    QueryConditionWithScoring.init self.condition self.and_scorers
      (self.or_scorers ++ [other]) self.limit

/-- Embeds the `isinstance(other, Limit)` case of
`QueryConditionWithScoring.__or__`. -/
def QueryConditionWithScoring.or_limit (self : QueryConditionWithScoring)
    (other : Limit) : Except Err QueryConditionWithScoring :=
  QueryConditionWithScoring.init self.condition self.and_scorers self.or_scorers
    (some (match self.limit with
           | none => other
           | some l => ⟨max l.limit other.limit⟩))

/-- Embeds the `isinstance(other, QueryConditionWithScoring)` case of
`QueryConditionWithScoring.__or__`. -/
def QueryConditionWithScoring.or_wrapper (self other : QueryConditionWithScoring) :
    Except Err QueryConditionWithScoring :=
  match Query.or_ [self.condition, other.condition] with
  | .error e => .error e
  | .ok combined_condition =>
    let combined_and_scorers := self.and_scorers ++ other.and_scorers
    let combined_or_scorers := self.or_scorers ++ other.or_scorers
    if !combined_and_scorers.isEmpty && !combined_or_scorers.isEmpty then
      .error (.valueError scorerConflictMsg)
    else
      let combined_limit : Option Limit :=
        match self.limit, other.limit with
        | some a, some b => some ⟨max a.limit b.limit⟩
        | some a, none => some a
        | none, b => b
      QueryConditionWithScoring.init combined_condition combined_and_scorers
        combined_or_scorers combined_limit

/-- Embeds `QueryConditionWithScoring.__invert__`. -/
def QueryConditionWithScoring.invert (self : QueryConditionWithScoring) :
    Except Err QueryConditionWithScoring :=
  match Query.not_ self.condition with
  | .error e => .error e
  | .ok c => QueryConditionWithScoring.init c self.and_scorers self.or_scorers self.limit

/-- One entry of the `functions` list in a `function_score` body. -/
def scorerFunction (scorer : ScriptScore) : J :=
  J.obj [("script_score", J.obj [("script",
    J.obj [("source", J.str scorer.script), ("params", J.obj scorer.params)])])]

/-- Embeds `QueryConditionWithScoring.to_dict`. -/
def QueryConditionWithScoring.to_dict (self : QueryConditionWithScoring) :
    Except Err J :=
  match self.condition.to_dict with
  | .error e => .error e
  | .ok q0 =>
    let query :=
      if !self.and_scorers.isEmpty || !self.or_scorers.isEmpty then
        let functions :=
          (if !self.and_scorers.isEmpty then self.and_scorers else self.or_scorers).map
            scorerFunction
        let mode := if !self.and_scorers.isEmpty then "multiply" else "max"
        J.obj [("function_score",
          J.obj [("query", q0), ("functions", J.arr functions),
                 ("score_mode", J.str mode)])]
      else q0
    match self.limit with
    | some l => .ok (J.obj [("size", J.int l.limit), ("query", query)])
    | none => .ok (J.obj [("query", query)])

/-- Embeds the `isinstance(other, Limit)` case of `Limit.__and__`. -/
def Limit.and_limit (self other : Limit) : Limit :=
  ⟨min self.limit other.limit⟩

/-- Embeds the `isinstance(other, Limit)` case of `Limit.__or__`. -/
def Limit.or_limit (self other : Limit) : Limit :=
  ⟨max self.limit other.limit⟩

/-- Embeds the `isinstance(other, QueryCondition)` case of `Limit.__and__`
(and of `Limit.__or__`, which is identical). -/
def Limit.and_condition (self : Limit) (other : QueryCondition) :
    Except Err QueryConditionWithScoring :=
  QueryConditionWithScoring.init other [] [] (some self)

/-- Embeds the `isinstance(other, QueryCondition)` case of
`ScriptScore.__and__`. -/
def ScriptScore.and_condition (self : ScriptScore) (other : QueryCondition) :
    Except Err QueryConditionWithScoring :=
  QueryConditionWithScoring.init other [self] [] none

/-- Embeds the `isinstance(other, QueryCondition)` case of
`ScriptScore.__or__`. -/
def ScriptScore.or_condition (self : ScriptScore) (other : QueryCondition) :
    Except Err QueryConditionWithScoring :=
  QueryConditionWithScoring.init other [] [self] none

/-- Removes the first binding of `key` from an association list, returning the
value (if any) and the remaining list: the effect of Python `dict.pop(key)`
on a unique-key dict. -/
def popKey (fields : List (String × J)) (key : String) :
    Option J × List (String × J) :=
  match fields with
  | [] => (none, [])
  | (k, v) :: rest =>
    if k == key then (some v, rest)
    else
      let (r, rest2) := popKey rest key
      (r, (k, v) :: rest2)

mutual

/-- Fuel bound for `_parse_mongo_query`: counts only the mapping and sequence
layers the parser actually recurses through (the values of `$or` / `$and`
keys), so it evaluates without inspecting field payloads. -/
def mongoWeight : J → Nat
  | .obj fields => 1 + mongoWeightFields fields
  | .arr xs => 1 + mongoWeightList xs
  | _ => 1

def mongoWeightList : List J → Nat
  | [] => 0
  | x :: xs => mongoWeight x + mongoWeightList xs

def mongoWeightFields : List (String × J) → Nat
  | [] => 0
  | (k, v) :: fs =>
    (if k == "$or" || k == "$and" then mongoWeight v else 0) + mongoWeightFields fs

end

/-- Embeds `MongoQueryCondition._handle_range_query`. -/
def _handle_range_query (field : String) (conditions : List (String × J)) :
    Except Err QueryCondition :=
  let range_conditions : List J :=
    (match conditions.lookup "$gt" with
     | some v => [J.obj [("gt", v)]]
     | none => []) ++
    (match conditions.lookup "$lt" with
     | some v => [J.obj [("lt", v)]]
     | none => []) ++
    (match conditions.lookup "$gte" with
     | some v => [J.obj [("gte", v)]]
     | none => []) ++
    (match conditions.lookup "$lte" with
     | some v => [J.obj [("lte", v)]]
     | none => [])
  Query.and_ (range_conditions.map
    (fun range_condition => ⟨some field, range_condition, some "range", none⟩))

/-- Embeds `MongoQueryCondition._handle_field_conditions`. -/
def _handle_field_conditions (field : String) (conditions : List (String × J)) :
    Except Err QueryCondition :=
  if (conditions.lookup "$gt").isSome || (conditions.lookup "$lt").isSome
      || (conditions.lookup "$gte").isSome || (conditions.lookup "$lte").isSome then
    _handle_range_query field conditions
  else
    match conditions.lookup "$in" with
    | some v => .ok ⟨some field, v, some "terms", none⟩
    | none =>
      match conditions.lookup "$ne" with
      | some v => Query.not_ ⟨some field, v, some "term", none⟩
      | none =>
        match conditions.lookup "$exists" with
        | some v =>
          if pyTruthy v then .ok ⟨some field, .null, some "exists", none⟩
          else Query.not_ ⟨some field, .null, some "exists", none⟩
        | none => .ok ⟨some field, J.obj conditions, some "term", none⟩

/-- Python iteration (`for condition in value`) over a JSON value: a list
yields its elements, a string its characters as one-character strings, a
mapping its keys; any other value raises a `TypeError: not iterable`. -/
def iterElems : J → Except Err (List J)
  | .arr xs => .ok xs
  | .str s => .ok (s.data.map (fun c => J.str (String.mk [c])))
  | .obj fields => .ok (fields.map (fun kv => J.str kv.1))
  | _ => .error (.typeError "logical operator value is not iterable")

/-- Embeds `MongoQueryCondition._parse_mongo_query`.  The Python function
mutates its input dict (`mongo_query.pop`), so the embedding returns the
resulting state of the mapping alongside the parsed condition.  The
`_handle_logical_or` / `_handle_logical_and` helpers are inlined as a
`mapME` of the parser over the iteration (`iterElems`) of the popped value:
Python iterates any iterable there, so an empty string or mapping yields no
conditions, while each element of a non-empty one reaches the recursive
call.  A non-mapping argument to the parser itself always raises in Python
(a `TypeError` from the membership test for scalars; for strings and lists
the later `.pop` / `.items()` attribute accesses raise) and is collapsed
into one error value, every caller treating all exceptions alike. -/
def _parse_mongo_query : Nat → J → Except Err (QueryCondition × J)
  | 0, _ => .error (.valueError "recursion fuel exhausted")
  | fuel+1, mongo_query =>
    match mongo_query with
    | .obj fields0 =>
      let (orVal, fields1) := popKey fields0 "$or"
      match ((match orVal with
             | none => .ok []
             | some v =>
               match iterElems v with
               | .error e => .error e
               | .ok elems =>
                 match mapME (_parse_mongo_query fuel) elems with
                 | .error e => .error e
                 | .ok sub =>
                   match Query.or_ (sub.map Prod.fst) with
                   | .error e => .error e
                   | .ok c => .ok [c]) :
             Except Err (List QueryCondition)) with
      | .error e => .error e
      | .ok orConds =>
        let (andVal, fields2) := popKey fields1 "$and"
        match ((match andVal with
               | none => .ok []
               | some v =>
                 match iterElems v with
                 | .error e => .error e
                 | .ok elems =>
                   match mapME (_parse_mongo_query fuel) elems with
                   | .error e => .error e
                   | .ok sub =>
                     match Query.and_ (sub.map Prod.fst) with
                     | .error e => .error e
                     | .ok c => .ok [c]) :
               Except Err (List QueryCondition)) with
        | .error e => .error e
        | .ok andConds =>
          match mapME (fun kv : String × J =>
                  match kv.2 with
                  | .obj sub => _handle_field_conditions kv.1 sub
                  | v => .ok ⟨some kv.1, v, some "term", none⟩) fields2 with
          | .error e => .error e
          | .ok fieldConds =>
            let conditions := orConds ++ andConds ++ fieldConds
            match conditions with
            | [c] => .ok (c, .obj fields2)
            | cs =>
              match Query.and_ cs with
              | .error e => .error e
              | .ok c => .ok (c, .obj fields2)
    | _ => .error (.typeError "mongo query is not a mapping")

/-- Embeds `MongoQueryCondition.__init__`: a falsy query becomes `match_all`,
anything else is parsed; the parsed condition's attributes are copied onto
the new object, which the pair's first component models.  The second
component is the state of the input mapping after translation. -/
def MongoQueryCondition.make (mongo_query : J) : Except Err (QueryCondition × J) :=
  if !(pyTruthy mongo_query) then
    .ok (⟨none, J.null, some "match_all", none⟩, mongo_query)
  else
    _parse_mongo_query (mongoWeight mongo_query) mongo_query

/-- Embeds the canonical AST node type of `normalization.py`.  `raw` models
the Python fall-through `if not isinstance(query, dict): return query`, which
passes a non-dict value through as its own tree node. -/
inductive NodeType where
  | logical (op : String) (children : List NodeType)
  | comp (field : String) (op : String) (value : J)
  | existsNode (field : J)
  | matchAllNode
  | raw (value : J)

mutual

/-- Fuel bound for `_query_to_tree`: counts only the layers the translation
recurses through (values of `query` / `bool` / `must` / `should` /
`must_not` keys and sequence elements), so it evaluates without inspecting
leaf payloads. -/
def jweight : J → Nat
  | .obj fields => 1 + jweightFields fields
  | .arr xs => 1 + jweightList xs
  | _ => 1

def jweightList : List J → Nat
  | [] => 0
  | x :: xs => jweight x + jweightList xs

def jweightFields : List (String × J) → Nat
  | [] => 0
  | (k, v) :: fs =>
    (if k == "query" || k == "bool" || k == "must" || k == "should" || k == "must_not"
     then jweight v else 0) + jweightFields fs

end

/-- Embeds `_query_to_tree` with explicit fuel.  The clause lists of a `bool`
body are expected to be sequences (iterating anything else raises in Python,
modelled as an error), and the `terms` / `range` / `term` / `exists`
payloads are expected to be non-empty mappings (`next(iter(...))` /
subscripting raises otherwise). -/
def treeF : Nat → J → Except Err NodeType
  | 0, _ => .error (.valueError "recursion fuel exhausted")
  | fuel+1, query0 =>
    match query0 with
    | .obj fields0 =>
      let query : J :=
        match fields0.lookup "query" with
        | some inner => inner
        | none => .obj fields0
      match query with
      | .obj fields =>
        match fields.lookup "bool" with
        | some boolQuery =>
          match boolQuery with
          | .obj bq =>
            match ((match bq.lookup "must" with
                   | none => .ok []
                   | some (.arr clauses) => mapME (treeF fuel) clauses
                   | some _ => .error (.typeError "bool must clauses are not iterable")) :
                   Except Err (List NodeType)) with
            | .error e => .error e
            | .ok musts =>
              match ((match bq.lookup "should" with
                     | none => .ok []
                     | some (.arr clauses) => mapME (treeF fuel) clauses
                     | some _ => .error (.typeError "bool should clauses are not iterable")) :
                     Except Err (List NodeType)) with
              | .error e => .error e
              | .ok shoulds =>
                match ((match bq.lookup "must_not" with
                       | none => .ok []
                       | some (.arr clauses) =>
                         mapME (fun clause =>
                           (treeF fuel clause).map
                             (fun t => NodeType.logical "not" [t])) clauses
                       | some _ => .error (.typeError "bool must_not clauses are not iterable")) :
                       Except Err (List NodeType)) with
                | .error e => .error e
                | .ok nots =>
                  match musts ++ shoulds ++ nots with
                  | [c] => .ok c
                  | children =>
                    .ok (.logical
                      (if (bq.lookup "must").isSome then "and" else "or") children)
          | _ => .error (.typeError "bool query is not a mapping")
        | none =>
          match fields.lookup "terms" with
          | some (.obj ((field, values) :: _)) =>
            match values with
            | .arr vs =>
              .ok (.logical "or" (vs.map (fun value => .comp field "==" value)))
            | _ => .error (.typeError "terms values are not iterable")
          | some _ => .error (.valueError "terms payload has no items")
          | none =>
            match fields.lookup "range" with
            | some (.obj ((field, condition) :: _)) =>
              match condition with
              | .obj ((op, value) :: _) => .ok (.comp field op value)
              | _ => .error (.valueError "range condition has no items")
            | some _ => .error (.valueError "range payload has no items")
            | none =>
              match fields.lookup "exists" with
              | some (.obj ef) =>
                match ef.lookup "field" with
                | some f => .ok (.existsNode f)
                | none => .error (.keyError "field")
              | some _ => .error (.typeError "exists payload is not a mapping")
              | none =>
                match fields.lookup "match_all" with
                | some _ => .ok .matchAllNode
                | none =>
                  match fields.lookup "term" with
                  | some (.obj ((field, value) :: _)) => .ok (.comp field "==" value)
                  | some _ => .error (.valueError "term payload has no items")
                  | none =>
                    .error (.valueError
                      ("Unsupported query type: " ++ pyStr (J.obj fields)))
      | _ => .error (.typeError "unwrapped query is not a mapping")
    | other => .ok (.raw other)

/-- Embeds `_query_to_tree`: translates a query body to a canonical AST. -/
def _query_to_tree (query : J) : Except Err NodeType :=
  treeF (jweight query) query

mutual

/-- Fuel bound for `_normalize_tree`: negation nodes weigh twice their
children, comparisons that the normalizer rewrites into a fresh negation
weigh double.  The bound dominates the depth of the rewrite recursion,
including the re-normalization of grandchildren in the De Morgan cases. -/
def normFuel : NodeType → Nat
  | .logical op cs => if op == "not" then 2 * normFuelList cs else 2 + normFuelList cs
  | .comp _ op _ =>
    if op == "gt" || op == ">" || op == "gte" || op == ">=" then 4 else 2
  | _ => 2

def normFuelList : List NodeType → Nat
  | [] => 0
  | c :: cs => normFuel c + normFuelList cs

end

/-- Embeds `_normalize_tree` with explicit fuel.  A `not` node normalizes its
children first, then rewrites according to the shape of its first child; the
`[]` branch is unreachable (Python would raise `IndexError` on
`node.children[0]`, and the library only builds `not` nodes with exactly one
child). -/
def normTreeF : Nat → NodeType → NodeType
  | 0, node => node
  | fuel+1, node =>
    match node with
    | .logical op children =>
      let children2 := children.map (normTreeF fuel)
      if op == "not" then
        match children2 with
        | child :: _ =>
          match child with
          | .logical cop gcs =>
            if cop == "and" then
              .logical "or"
                (gcs.map (fun c => .logical "not" [normTreeF fuel c]))
            else if cop == "or" then
              .logical "and"
                (gcs.map (fun c => .logical "not" [normTreeF fuel c]))
            else .logical op children2
          | .comp cfield cop cvalue =>
            if cop == ">" then .comp cfield "<=" cvalue
            else if cop == ">=" then .comp cfield "<" cvalue
            else if cop == "!=" then .comp cfield "==" cvalue
            else .logical op children2
          | _ => .logical op children2
        | [] => .logical op children2
      else .logical op children2
    | .comp field op value =>
      if op == "gt" || op == ">" then .logical "not" [.comp field "<=" value]
      else if op == "gte" || op == ">=" then .logical "not" [.comp field "<" value]
      else if op == "lt" || op == "<" then .comp field "<" value
      else if op == "lte" || op == "<=" then .comp field "<=" value
      else .comp field op value
    | other => other

/-- Embeds `_normalize_tree`. -/
def _normalize_tree (node : NodeType) : NodeType :=
  normTreeF (normFuel node) node

mutual

/-- Number of nodes of a canonical AST; the fuel bound for
`_reduce_double_negation`. -/
def nodeCount : NodeType → Nat
  | .logical _ cs => 1 + nodeCountList cs
  | _ => 1

def nodeCountList : List NodeType → Nat
  | [] => 0
  | c :: cs => nodeCount c + nodeCountList cs

end

/-- Embeds `_reduce_double_negation` with explicit fuel.  Children are reduced
first; `not(not(x))` collapses to the reduction of `x`.  The branch where the
inner `not` has no children is unreachable (Python would raise `IndexError`). -/
def reduceF : Nat → NodeType → NodeType
  | 0, node => node
  | fuel+1, node =>
    match node with
    | .logical op children =>
      let children2 := children.map (reduceF fuel)
      match children2 with
      | (.logical cop gcs) :: _ =>
        if op == "not" && cop == "not" then
          match gcs with
          | g :: _ => reduceF fuel g
          | [] => .logical op children2
        else .logical op children2
      | _ => .logical op children2
    | other => other

/-- Embeds `_reduce_double_negation`. -/
def _reduce_double_negation (node : NodeType) : NodeType :=
  reduceF (nodeCount node) node

mutual

/-- Embeds `flatten_logical_nodes`: a logical node absorbs the children of
any flattened child carrying the identical operator. -/
def flatten_logical_nodes : NodeType → NodeType
  | .logical op children => .logical op (flattenChildren op children)
  | node => node

def flattenChildren (op : String) : List NodeType → List NodeType
  | [] => []
  | c :: cs =>
    (match flatten_logical_nodes c with
     | .logical cop gcs => if cop == op then gcs else [.logical cop gcs]
     | fc => [fc]) ++ flattenChildren op cs

end

mutual

/-- Embeds `_tree_to_string`: children are rendered, sorted as strings, and
comma-joined; leaves render by f-string interpolation. -/
def _tree_to_string : NodeType → String
  | .logical op children =>
    op ++ "(" ++ String.intercalate ", " (sortStrings (childStrings children)) ++ ")"
  | .comp field op value => field ++ " " ++ op ++ " " ++ pyStr value
  | .existsNode field => "exists(" ++ pyStr field ++ ")"
  | .matchAllNode => "match_all()"
  | .raw value => pyStr value

def childStrings : List NodeType → List String
  | [] => []
  | c :: cs => _tree_to_string c :: childStrings cs

end

/-- Embeds `normalized_readable_query`: the full canonicalization pipeline
from a query body to its canonical string. -/
def normalized_readable_query (query : J) : Except Err String :=
  match _query_to_tree query with
  | .error e => .error e
  | .ok root =>
    let normalized_root := _normalize_tree root
    let reduced_root := _reduce_double_negation normalized_root
    let flattened_root := flatten_logical_nodes reduced_root
    .ok (_tree_to_string flattened_root)

mutual

/-- Whether a canonical AST contains no comparison whose operator is one of
the greater-than forms (`gt`, `>`, `gte`, `>=`). -/
def noGt : NodeType → Bool
  | .logical _ cs => noGtList cs
  | .comp _ op _ => !(op == "gt" || op == ">" || op == "gte" || op == ">=")
  | _ => true

def noGtList : List NodeType → Bool
  | [] => true
  | c :: cs => noGt c && noGtList cs

end

/-- Canonical string of a built condition's serialized body: the spec's
`canon(serialize(c))` composition. -/
def canonSerialized (c : QueryCondition) : Except Err String :=
  match c.to_dict with
  | .error e => .error e
  | .ok body => normalized_readable_query body

/-- Leaf conditions of the condition algebra: `term`, `range` (one bound),
`exists` and `match_all` leaves, exactly as the library's combinators build
them.  They are the domain of the amended algebraic laws. -/
inductive LeafCond where
  | termLeaf (field : String) (value : J)
  | rangeGtLeaf (field : String) (value : J)
  | rangeLtLeaf (field : String) (value : J)
  | rangeGteLeaf (field : String) (value : J)
  | rangeLteLeaf (field : String) (value : J)
  | existsLeaf (field : String)
  | matchAllLeaf

/-- The `QueryCondition` a leaf denotes; the range leaves agree with
`QueryCondition.gt_` and friends on a field reference, `existsLeaf` with
`QueryCondition(field, None, "exists")` and `matchAllLeaf` with
`Index.match_all`. -/
def LeafCond.toCondition : LeafCond → QueryCondition
  | .termLeaf f v => ⟨some f, v, some "term", none⟩
  | .rangeGtLeaf f v => ⟨some f, J.obj [("gt", v)], some "range", none⟩
  | .rangeLtLeaf f v => ⟨some f, J.obj [("lt", v)], some "range", none⟩
  | .rangeGteLeaf f v => ⟨some f, J.obj [("gte", v)], some "range", none⟩
  | .rangeLteLeaf f v => ⟨some f, J.obj [("lte", v)], some "range", none⟩
  | .existsLeaf f => ⟨some f, J.null, some "exists", none⟩
  | .matchAllLeaf => ⟨none, J.null, some "match_all", none⟩

/-- Serialized body of a one-bound `range` leaf. -/
def rangeBody (field op : String) (value : J) : J :=
  J.obj [("range", J.obj [(field, J.obj [(op, value)])])]

/-- Serialized body of `not(c)` for a serialized body of `c`. -/
def mustNotBody (inner : J) : J :=
  J.obj [("bool", J.obj [("must_not", J.arr [inner])])]

theorem init_ok_elim {c : QueryCondition} {as os : List ScriptScore}
    {l : Option Limit} {w : QueryConditionWithScoring}
    (h : QueryConditionWithScoring.init c as os l = .ok w) : w = ⟨c, as, os, l⟩ := by
  unfold QueryConditionWithScoring.init at h
  split at h
  · simp at h
  · exact (Except.ok.inj h).symm

theorem popKey_of_lookup_none {fields : List (String × J)} {key : String}
    (h : fields.lookup key = none) : popKey fields key = (none, fields) := by
  induction fields with
  | nil => rfl
  | cons kv rest ih =>
    obtain ⟨k, v⟩ := kv
    by_cases hk : k = key
    · subst hk
      simp [List.lookup] at h
    · have hbk : (k == key) = false := by simpa using hk
      have hkb : (key == k) = false := by simpa using (Ne.symm hk)
      simp only [List.lookup, hkb] at h
      simp [popKey, hbk, ih h]

theorem mapME_ok_strong {α β : Type} {f : α → Except Err β} {P : β → Prop}
    {l : List α} (h : ∀ x ∈ l, ∃ y, f x = .ok y ∧ P y) :
    ∃ ys, mapME f l = .ok ys ∧ ∀ y ∈ ys, P y := by
  induction l with
  | nil => exact ⟨[], rfl, by simp⟩
  | cons x xs ih =>
    obtain ⟨y, hy, hP⟩ := h x (by simp)
    obtain ⟨ys, hys, hPs⟩ := ih (fun a ha => h a (by simp [ha]))
    refine ⟨y :: ys, ?_, ?_⟩
    · simp [mapME, hy, hys]
    · intro z hz
      rcases List.mem_cons.mp hz with rfl | hz2
      · exact hP
      · exact hPs z hz2

theorem mapME_range_conditions (k : String) (l : List J) :
    mapME QueryCondition.to_dict
      (l.map (fun range_condition =>
        (⟨some k, range_condition, some "range", none⟩ : QueryCondition))) =
    .ok (l.map (fun range_condition => J.obj [("range", J.obj [(k, range_condition)])])) := by
  induction l with
  | nil => rfl
  | cons x xs ih =>
    simp [mapME, ih, QueryCondition.to_dict, QueryCondition._build_query,
      QueryCondition.fieldKey]

theorem handle_field_conditions_ok (k : String) (sub : List (String × J)) :
    ∃ c, _handle_field_conditions k sub = .ok c ∧ ∃ d, c.to_dict = .ok d := by
  unfold _handle_field_conditions
  split
  · unfold _handle_range_query Query.and_
    dsimp only
    rw [mapME_range_conditions]
    exact ⟨_, rfl, _, rfl⟩
  · split
    · exact ⟨_, rfl, _, rfl⟩
    · split
      · unfold Query.not_
        exact ⟨_, rfl, _, rfl⟩
      · split
        · split
          · exact ⟨_, rfl, _, rfl⟩
          · unfold Query.not_
            exact ⟨_, rfl, _, rfl⟩
        · exact ⟨_, rfl, _, rfl⟩

theorem mongoWeight_pos (v : J) : 1 ≤ mongoWeight v := by
  cases v <;> simp [mongoWeight]

theorem normFuelList_le_of_mem {c : NodeType} {cs : List NodeType} (h : c ∈ cs) :
    normFuel c ≤ normFuelList cs := by
  induction cs with
  | nil => cases h
  | cons x xs ih =>
    rcases List.mem_cons.mp h with rfl | hx
    · simp [normFuelList]
    · have := ih hx
      simp only [normFuelList]
      omega

theorem noGtList_iff {cs : List NodeType} :
    noGtList cs = true ↔ ∀ c ∈ cs, noGt c = true := by
  induction cs with
  | nil => simp [noGtList]
  | cons x xs ih =>
    simp only [noGtList, Bool.and_eq_true, ih, List.mem_cons]
    constructor
    · rintro ⟨hx, hxs⟩ c (rfl | hc)
      · exact hx
      · exact hxs c hc
    · intro h
      exact ⟨h x (Or.inl rfl), fun c hc => h c (Or.inr hc)⟩

theorem normFuelList_map_le {f : Nat} {cs : List NodeType}
    (h : ∀ c ∈ cs, normFuel (normTreeF f c) ≤ normFuel c) :
    normFuelList (cs.map (normTreeF f)) ≤ normFuelList cs := by
  induction cs with
  | nil => simp [normFuelList]
  | cons x xs ih =>
    simp only [List.map_cons, normFuelList]
    have h1 := h x (by simp)
    have h2 := ih (fun c hc => h c (by simp [hc]))
    omega

theorem normFuelList_notmap_le {f : Nat} {gcs : List NodeType}
    (h : ∀ c ∈ gcs, normFuel (normTreeF f c) ≤ normFuel c) :
    normFuelList (gcs.map (fun c => NodeType.logical "not" [normTreeF f c])) ≤
      2 * normFuelList gcs := by
  induction gcs with
  | nil => simp [normFuelList]
  | cons x xs ih =>
    simp only [List.map_cons, normFuelList]
    have h1 := h x (by simp)
    have h2 := ih (fun c hc => h c (by simp [hc]))
    have hx : normFuel (NodeType.logical "not" [normTreeF f x]) =
        2 * (normFuel (normTreeF f x) + 0) := by
      simp [normFuel, normFuelList]
    omega

theorem normFuelList_zero {cs : List NodeType} (h : normFuelList cs = 0) :
    ∀ c ∈ cs, normFuel c = 0 := by
  induction cs with
  | nil => simp
  | cons x xs ih =>
    simp only [normFuelList] at h
    intro c hc
    rcases List.mem_cons.mp hc with rfl | hc2
    · omega
    · exact ih (by omega) c hc2

theorem nodeCount_le_of_mem {c : NodeType} {cs : List NodeType} (h : c ∈ cs) :
    nodeCount c ≤ nodeCountList cs := by
  induction cs with
  | nil => cases h
  | cons x xs ih =>
    rcases List.mem_cons.mp h with rfl | hx
    · simp [nodeCountList]
    · have := ih hx
      simp only [nodeCountList]
      omega

theorem normFuel_zero_noGt : ∀ (n : Nat) (t : NodeType), nodeCount t ≤ n →
    normFuel t = 0 → noGt t = true := by
  intro n
  induction n with
  | zero =>
    intro t hc
    cases t <;> simp [nodeCount] at hc
  | succ n ih =>
    intro t hc hz
    cases t with
    | logical op cs =>
      by_cases hop : (op == "not") = true
      · simp only [normFuel, hop, if_pos] at hz
        have hlz : normFuelList cs = 0 := by omega
        simp only [noGt]
        rw [noGtList_iff]
        intro c hcmem
        have h1 : nodeCount c ≤ n := by
          have := nodeCount_le_of_mem hcmem
          simp only [nodeCount] at hc
          omega
        exact ih c h1 (normFuelList_zero hlz c hcmem)
      · simp [normFuel, hop] at hz
    | comp a b c =>
      simp only [normFuel] at hz
      split at hz <;> omega
    | existsNode a => simp [normFuel] at hz
    | matchAllNode => simp [normFuel] at hz
    | raw a => simp [normFuel] at hz

theorem normFuel_comp_ge (a b : String) (v : J) : 2 ≤ normFuel (.comp a b v) := by
  simp only [normFuel]
  split <;> omega

theorem normTreeF_noGt : ∀ (fuel : Nat) (t : NodeType), normFuel t ≤ fuel →
    noGt (normTreeF fuel t) = true ∧ normFuel (normTreeF fuel t) ≤ normFuel t := by
  intro fuel
  induction fuel with
  | zero =>
    intro t hf
    have hz : normFuel t = 0 := by omega
    simp only [normTreeF]
    exact ⟨normFuel_zero_noGt (nodeCount t) t le_rfl hz, le_rfl⟩
  | succ f ih =>
    intro t hf
    cases t with
    | comp field op value =>
      simp only [normTreeF]
      split
      · next hop =>
        refine ⟨by simp [noGt, noGtList], ?_⟩
        have hh : (op == "gt" || op == ">" || op == "gte" || op == ">=") = true := by
          simp only [Bool.or_eq_true] at hop ⊢
          tauto
        simp [normFuel, normFuelList, hh]
      · split
        · next hop =>
          refine ⟨by simp [noGt, noGtList], ?_⟩
          have hh : (op == "gt" || op == ">" || op == "gte" || op == ">=") = true := by
            simp only [Bool.or_eq_true] at hop ⊢
            tauto
          simp [normFuel, normFuelList, hh]
        · split
          · refine ⟨by simp [noGt], ?_⟩
            have hL2 : normFuel (NodeType.comp field "<" value) = 2 := by
              simp [normFuel]
            rw [hL2]
            exact normFuel_comp_ge field op value
          · split
            · refine ⟨by simp [noGt], ?_⟩
              have hL2 : normFuel (NodeType.comp field "<=" value) = 2 := by
                simp [normFuel]
              rw [hL2]
              exact normFuel_comp_ge field op value
            · next h1 h2 h3 h4 =>
              refine ⟨?_, le_rfl⟩
              simp only [noGt]
              simp only [Bool.or_eq_true, not_or] at h1 h2
              simp [h1.1, h1.2, h2.1, h2.2]
    | existsNode a => exact ⟨rfl, le_rfl⟩
    | matchAllNode => exact ⟨rfl, le_rfl⟩
    | raw a => exact ⟨rfl, le_rfl⟩
    | logical op cs =>
      have hch : ∀ c ∈ cs, normFuel c ≤ f := by
        intro c hc
        have h1 := normFuelList_le_of_mem hc
        by_cases hop : (op == "not") = true
        · have h2 : normFuel (NodeType.logical op cs) = 2 * normFuelList cs := by
            simp [normFuel, hop]
          omega
        · have h2 : normFuel (NodeType.logical op cs) = 2 + normFuelList cs := by
            simp [normFuel, hop]
          omega
      have hmap : ∀ c ∈ cs, noGt (normTreeF f c) = true ∧
          normFuel (normTreeF f c) ≤ normFuel c :=
        fun c hc => ih c (hch c hc)
      have hng2 : noGtList (cs.map (normTreeF f)) = true := by
        rw [noGtList_iff]
        intro x hx
        obtain ⟨c, hc, rfl⟩ := List.mem_map.mp hx
        exact (hmap c hc).1
      have hfl2 : normFuelList (cs.map (normTreeF f)) ≤ normFuelList cs :=
        normFuelList_map_le (fun c hc => (hmap c hc).2)
      by_cases hop : (op == "not") = true
      case neg =>
        simp only [normTreeF]
        rw [if_neg hop]
        refine ⟨by simpa [noGt] using hng2, ?_⟩
        have h2 : normFuel (NodeType.logical op cs) = 2 + normFuelList cs := by
          simp [normFuel, hop]
        have h3 : normFuel (NodeType.logical op (cs.map (normTreeF f))) =
            2 + normFuelList (cs.map (normTreeF f)) := by
          simp [normFuel, hop]
        omega
      case pos =>
        have hopeq : op = "not" := by simpa using hop
        subst hopeq
        have hL : normFuel (NodeType.logical "not" cs) = 2 * normFuelList cs := by
          simp [normFuel]
        cases cs with
        | nil =>
          simp only [normTreeF]
          exact ⟨rfl, le_rfl⟩
        | cons c0 cs0 =>
          have hc0 := hmap c0 (by simp)
          have hc0fuel : normFuel c0 ≤ normFuelList (c0 :: cs0) :=
            normFuelList_le_of_mem (by simp)
          simp only [normTreeF, List.map_cons]
          rw [if_pos hop]
          cases hshape : normTreeF f c0 with
          | logical cop gcs =>
            dsimp only
            have hnc0g : noGt (NodeType.logical cop gcs) = true := by
              rw [← hshape]; exact hc0.1
            have hnc0f : normFuel (NodeType.logical cop gcs) ≤ normFuel c0 := by
              rw [← hshape]; exact hc0.2
            by_cases hcop : (cop == "and") = true
            · have hcopeq : cop = "and" := by simpa using hcop
              subst hcopeq
              rw [if_pos hcop]
              have hgf : normFuel (NodeType.logical "and" gcs) =
                  2 + normFuelList gcs := by simp [normFuel]
              have hgch : ∀ gc ∈ gcs, normFuel gc ≤ f := by
                intro gc hgc
                have := normFuelList_le_of_mem hgc
                rw [hL] at hf
                simp only [normFuelList] at hf
                rw [hgf] at hnc0f
                omega
              have hgmap : ∀ gc ∈ gcs, noGt (normTreeF f gc) = true ∧
                  normFuel (normTreeF f gc) ≤ normFuel gc :=
                fun gc hgc => ih gc (hgch gc hgc)
              constructor
              · simp only [noGt]
                rw [noGtList_iff]
                intro x hx
                obtain ⟨gc, hgc, rfl⟩ := List.mem_map.mp hx
                simp only [noGt, noGtList, Bool.and_eq_true]
                exact ⟨(hgmap gc hgc).1, trivial⟩
              · have hnotmap := normFuelList_notmap_le
                  (fun gc hgc => (hgmap gc hgc).2)
                have hres : normFuel (NodeType.logical "or"
                    (gcs.map (fun c => NodeType.logical "not" [normTreeF f c]))) =
                    2 + normFuelList
                      (gcs.map (fun c => NodeType.logical "not" [normTreeF f c])) := by
                  simp [normFuel]
                rw [hres, hL]
                simp only [normFuelList]
                rw [hgf] at hnc0f
                omega
            · by_cases hcop2 : (cop == "or") = true
              · have hcopeq : cop = "or" := by simpa using hcop2
                subst hcopeq
                rw [if_neg hcop, if_pos hcop2]
                have hgf : normFuel (NodeType.logical "or" gcs) =
                    2 + normFuelList gcs := by simp [normFuel]
                have hgch : ∀ gc ∈ gcs, normFuel gc ≤ f := by
                  intro gc hgc
                  have := normFuelList_le_of_mem hgc
                  rw [hL] at hf
                  simp only [normFuelList] at hf
                  rw [hgf] at hnc0f
                  omega
                have hgmap : ∀ gc ∈ gcs, noGt (normTreeF f gc) = true ∧
                    normFuel (normTreeF f gc) ≤ normFuel gc :=
                  fun gc hgc => ih gc (hgch gc hgc)
                constructor
                · simp only [noGt]
                  rw [noGtList_iff]
                  intro x hx
                  obtain ⟨gc, hgc, rfl⟩ := List.mem_map.mp hx
                  simp only [noGt, noGtList, Bool.and_eq_true]
                  exact ⟨(hgmap gc hgc).1, trivial⟩
                · have hnotmap := normFuelList_notmap_le
                    (fun gc hgc => (hgmap gc hgc).2)
                  have hres : normFuel (NodeType.logical "and"
                      (gcs.map (fun c => NodeType.logical "not" [normTreeF f c]))) =
                      2 + normFuelList
                        (gcs.map (fun c => NodeType.logical "not" [normTreeF f c])) := by
                    simp [normFuel]
                  rw [hres, hL]
                  simp only [normFuelList]
                  rw [hgf] at hnc0f
                  omega
              · rw [if_neg hcop, if_neg hcop2]
                constructor
                · simp only [noGt, noGtList, Bool.and_eq_true]
                  refine ⟨by simpa [noGt] using hnc0g, ?_⟩
                  rw [noGtList_iff]
                  intro x hx
                  obtain ⟨c, hc, rfl⟩ := List.mem_map.mp hx
                  exact (hmap c (by simp [hc])).1
                · have h3 : normFuel (NodeType.logical "not"
                      (NodeType.logical cop gcs :: cs0.map (normTreeF f))) =
                      2 * (normFuel (NodeType.logical cop gcs) +
                        normFuelList (cs0.map (normTreeF f))) := by
                    simp [normFuel, normFuelList]
                  have h4 : normFuelList (cs0.map (normTreeF f)) ≤ normFuelList cs0 :=
                    normFuelList_map_le (fun c hc => (hmap c (by simp [hc])).2)
                  rw [hL]
                  simp only [normFuelList]
                  rw [h3]
                  omega
          | comp cfield cop cvalue =>
            dsimp only
            have hnc0f : normFuel (NodeType.comp cfield cop cvalue) ≤ normFuel c0 := by
              rw [← hshape]; exact hc0.2
            have hge := normFuel_comp_ge cfield cop cvalue
            have hLge : 2 ≤ normFuelList (c0 :: cs0) := by
              simp only [normFuelList]
              omega
            by_cases h1 : (cop == ">") = true
            · rw [if_pos h1]
              refine ⟨by simp [noGt], ?_⟩
              rw [hL]
              have h6 : normFuel (NodeType.comp cfield "<=" cvalue) = 2 := by
                simp [normFuel]
              omega
            · by_cases h2 : (cop == ">=") = true
              · rw [if_neg h1, if_pos h2]
                refine ⟨by simp [noGt], ?_⟩
                rw [hL]
                have h6 : normFuel (NodeType.comp cfield "<" cvalue) = 2 := by
                  simp [normFuel]
                omega
              · by_cases h3 : (cop == "!=") = true
                · rw [if_neg h1, if_neg h2, if_pos h3]
                  refine ⟨by simp [noGt], ?_⟩
                  rw [hL]
                  have h6 : normFuel (NodeType.comp cfield "==" cvalue) = 2 := by
                    simp [normFuel]
                  omega
                · rw [if_neg h1, if_neg h2, if_neg h3]
                  constructor
                  · simp only [noGt, noGtList, Bool.and_eq_true]
                    have hng0 : noGt (NodeType.comp cfield cop cvalue) = true := by
                      rw [← hshape]; exact hc0.1
                    refine ⟨hng0, ?_⟩
                    rw [noGtList_iff]
                    intro x hx
                    obtain ⟨c, hc, rfl⟩ := List.mem_map.mp hx
                    exact (hmap c (by simp [hc])).1
                  · have h5 : normFuel (NodeType.logical "not"
                        (NodeType.comp cfield cop cvalue :: cs0.map (normTreeF f))) =
                        2 * (normFuel (NodeType.comp cfield cop cvalue) +
                          normFuelList (cs0.map (normTreeF f))) := by
                      simp [normFuel, normFuelList]
                    have h4 : normFuelList (cs0.map (normTreeF f)) ≤ normFuelList cs0 :=
                      normFuelList_map_le (fun c hc => (hmap c (by simp [hc])).2)
                    rw [hL]
                    simp only [normFuelList]
                    rw [h5]
                    omega
          | existsNode a =>
            dsimp only
            constructor
            · simp only [noGt, noGtList, Bool.and_eq_true]
              refine ⟨trivial, ?_⟩
              rw [noGtList_iff]
              intro x hx
              obtain ⟨c, hc, rfl⟩ := List.mem_map.mp hx
              exact (hmap c (by simp [hc])).1
            · have h5 : normFuel (NodeType.logical "not"
                  (NodeType.existsNode a :: cs0.map (normTreeF f))) =
                  2 * (2 + normFuelList (cs0.map (normTreeF f))) := by
                simp [normFuel, normFuelList]
              have h4 : normFuelList (cs0.map (normTreeF f)) ≤ normFuelList cs0 :=
                normFuelList_map_le (fun c hc => (hmap c (by simp [hc])).2)
              have hnc0f : normFuel (NodeType.existsNode a) ≤ normFuel c0 := by
                rw [← hshape]; exact hc0.2
              simp only [normFuel] at hnc0f
              rw [hL]
              simp only [normFuelList]
              rw [h5]
              omega
          | matchAllNode =>
            dsimp only
            constructor
            · simp only [noGt, noGtList, Bool.and_eq_true]
              refine ⟨trivial, ?_⟩
              rw [noGtList_iff]
              intro x hx
              obtain ⟨c, hc, rfl⟩ := List.mem_map.mp hx
              exact (hmap c (by simp [hc])).1
            · have h5 : normFuel (NodeType.logical "not"
                  (NodeType.matchAllNode :: cs0.map (normTreeF f))) =
                  2 * (2 + normFuelList (cs0.map (normTreeF f))) := by
                simp [normFuel, normFuelList]
              have h4 : normFuelList (cs0.map (normTreeF f)) ≤ normFuelList cs0 :=
                normFuelList_map_le (fun c hc => (hmap c (by simp [hc])).2)
              have hnc0f : normFuel NodeType.matchAllNode ≤ normFuel c0 := by
                rw [← hshape]; exact hc0.2
              simp only [normFuel] at hnc0f
              rw [hL]
              simp only [normFuelList]
              rw [h5]
              omega
          | raw a =>
            dsimp only
            constructor
            · simp only [noGt, noGtList, Bool.and_eq_true]
              refine ⟨trivial, ?_⟩
              rw [noGtList_iff]
              intro x hx
              obtain ⟨c, hc, rfl⟩ := List.mem_map.mp hx
              exact (hmap c (by simp [hc])).1
            · have h5 : normFuel (NodeType.logical "not"
                  (NodeType.raw a :: cs0.map (normTreeF f))) =
                  2 * (2 + normFuelList (cs0.map (normTreeF f))) := by
                simp [normFuel, normFuelList]
              have h4 : normFuelList (cs0.map (normTreeF f)) ≤ normFuelList cs0 :=
                normFuelList_map_le (fun c hc => (hmap c (by simp [hc])).2)
              have hnc0f : normFuel (NodeType.raw a) ≤ normFuel c0 := by
                rw [← hshape]; exact hc0.2
              simp only [normFuel] at hnc0f
              rw [hL]
              simp only [normFuelList]
              rw [h5]
              omega

theorem reduceF_noGt : ∀ (fuel : Nat) (t : NodeType), noGt t = true →
    noGt (reduceF fuel t) = true := by
  intro fuel
  induction fuel with
  | zero =>
    intro t h
    simpa [reduceF] using h
  | succ f ih =>
    intro t h
    cases t with
    | logical op cs =>
      simp only [noGt] at h
      have hall : ∀ c ∈ cs, noGt c = true := noGtList_iff.mp h
      have hmap : ∀ c ∈ cs, noGt (reduceF f c) = true :=
        fun c hc => ih c (hall c hc)
      have hng2 : noGtList (cs.map (reduceF f)) = true := by
        rw [noGtList_iff]
        intro x hx
        obtain ⟨c, hc, rfl⟩ := List.mem_map.mp hx
        exact hmap c hc
      cases cs with
      | nil => simp [reduceF, noGt, noGtList]
      | cons c0 cs0 =>
        simp only [reduceF, List.map_cons]
        cases hshape : reduceF f c0 with
        | logical cop gcs =>
          dsimp only
          have hng0 : noGt (NodeType.logical cop gcs) = true := by
            rw [← hshape]
            exact hmap c0 (by simp)
          split
          · cases gcs with
            | nil =>
              simp only [noGt, noGtList, Bool.and_eq_true]
              refine ⟨by simp [noGt] at hng0; simp [noGt, hng0], ?_⟩
              rw [noGtList_iff]
              intro x hx
              obtain ⟨c, hc, rfl⟩ := List.mem_map.mp hx
              exact hmap c (by simp [hc])
            | cons g gs =>
              have hg : noGt g = true := by
                simp only [noGt] at hng0
                exact (noGtList_iff.mp hng0) g (by simp)
              exact ih g hg
          · simp only [noGt, noGtList, Bool.and_eq_true]
            refine ⟨by simpa [noGt] using hng0, ?_⟩
            rw [noGtList_iff]
            intro x hx
            obtain ⟨c, hc, rfl⟩ := List.mem_map.mp hx
            exact hmap c (by simp [hc])
        | comp a b c =>
          dsimp only
          simp only [noGt, noGtList, Bool.and_eq_true]
          have hng0 : noGt (NodeType.comp a b c) = true := by
            rw [← hshape]
            exact hmap c0 (by simp)
          refine ⟨by simpa [noGt] using hng0, ?_⟩
          rw [noGtList_iff]
          intro x hx
          obtain ⟨c2, hc2, rfl⟩ := List.mem_map.mp hx
          exact hmap c2 (by simp [hc2])
        | existsNode a =>
          dsimp only
          simp only [noGt, noGtList, Bool.and_eq_true]
          refine ⟨trivial, ?_⟩
          rw [noGtList_iff]
          intro x hx
          obtain ⟨c2, hc2, rfl⟩ := List.mem_map.mp hx
          exact hmap c2 (by simp [hc2])
        | matchAllNode =>
          dsimp only
          simp only [noGt, noGtList, Bool.and_eq_true]
          refine ⟨trivial, ?_⟩
          rw [noGtList_iff]
          intro x hx
          obtain ⟨c2, hc2, rfl⟩ := List.mem_map.mp hx
          exact hmap c2 (by simp [hc2])
        | raw a =>
          dsimp only
          simp only [noGt, noGtList, Bool.and_eq_true]
          refine ⟨trivial, ?_⟩
          rw [noGtList_iff]
          intro x hx
          obtain ⟨c2, hc2, rfl⟩ := List.mem_map.mp hx
          exact hmap c2 (by simp [hc2])
    | comp a b c => simpa [reduceF] using h
    | existsNode a => simp [reduceF, noGt]
    | matchAllNode => simp [reduceF, noGt]
    | raw a => simp [reduceF, noGt]

theorem noGtList_append (a b : List NodeType) :
    noGtList (a ++ b) = (noGtList a && noGtList b) := by
  induction a with
  | nil => simp [noGtList]
  | cons x xs ih => simp [noGtList, ih, Bool.and_assoc]

theorem flattenChildren_noGt (op : String) (cs : List NodeType)
    (h : ∀ c ∈ cs, noGt (flatten_logical_nodes c) = true) :
    noGtList (flattenChildren op cs) = true := by
  induction cs with
  | nil => rfl
  | cons c rest ih =>
    simp only [flattenChildren, noGtList_append, Bool.and_eq_true]
    refine ⟨?_, ih (fun x hx => h x (by simp [hx]))⟩
    have hc := h c (by simp)
    cases hfc : flatten_logical_nodes c with
    | logical cop gcs =>
      rw [hfc] at hc
      dsimp only
      split
      · simpa [noGt] using hc
      · simpa [noGt, noGtList] using hc
    | comp a b v =>
      rw [hfc] at hc
      simpa [noGt, noGtList] using hc
    | existsNode a => simp [noGt, noGtList]
    | matchAllNode => simp [noGt, noGtList]
    | raw a => simp [noGt, noGtList]

theorem flatten_noGt_aux : ∀ (n : Nat) (t : NodeType), nodeCount t ≤ n →
    noGt t = true → noGt (flatten_logical_nodes t) = true := by
  intro n
  induction n using Nat.strong_induction_on with
  | _ n ih =>
    intro t hc ht
    cases t with
    | logical op cs =>
      simp only [flatten_logical_nodes, noGt]
      apply flattenChildren_noGt
      intro c hcm
      have hcount : nodeCount c < n := by
        have h1 := nodeCount_le_of_mem hcm
        simp only [nodeCount] at hc
        omega
      have hng : noGt c = true := by
        simp only [noGt] at ht
        exact noGtList_iff.mp ht c hcm
      exact ih (nodeCount c) hcount c le_rfl hng
    | comp a b v => simpa [flatten_logical_nodes] using ht
    | existsNode a => simp [flatten_logical_nodes, noGt]
    | matchAllNode => simp [flatten_logical_nodes, noGt]
    | raw a => simp [flatten_logical_nodes, noGt]


set_option maxHeartbeats 2000000 in
/-- C1 (counterexample): the De Morgan law `canon(not(and(a,b))) =
canon(or(not(a), not(b)))` fails when `a` is itself a conjunction, because
`_normalize_tree` does not re-apply the negation rewrites to the fresh `not`
nodes it creates: with `a = and(p == u, q == v)` and `b = (r == w)` the left
side canonicalizes to `or(not(and(p == u, q == v)), not(r == w))` while the
right side canonicalizes to `or(not(p == u), not(q == v), not(r == w))`. -/
theorem c1_de_morgan_counterexample :
    (do
      let a ← Query.and_ [(⟨some "p", J.str "u", some "term", none⟩ : QueryCondition),
                          ⟨some "q", J.str "v", some "term", none⟩]
      let conj ← Query.and_ [a, ⟨some "r", J.str "w", some "term", none⟩]
      let neg ← Query.not_ conj
      canonSerialized neg) ≠
    (do
      let a ← Query.and_ [(⟨some "p", J.str "u", some "term", none⟩ : QueryCondition),
                          ⟨some "q", J.str "v", some "term", none⟩]
      let na ← Query.not_ a
      let nb ← Query.not_ (⟨some "r", J.str "w", some "term", none⟩ : QueryCondition)
      let disj ← Query.or_ [na, nb]
      canonSerialized disj) := by
  intro h
  exact absurd
    (Except.ok.inj
      (show (Except.ok "or(not(and(p == u, q == v)), not(r == w))" : Except Err String) =
        Except.ok "or(not(p == u), not(q == v), not(r == w))" from h))
    (by decide)

set_option maxHeartbeats 4000000 in
/-- C1 (amended): for every two leaf Condition Trees `a` and `b` (a `term`,
one-bound `range`, `exists` or `match_all` leaf, over any field and value),
canonicalizing the serialized body of `not(and(a, b))` yields the same string
as canonicalizing the serialized body of `or(not(a), not(b))`. -/
theorem c1_de_morgan_amended (a b : LeafCond) :
    (do
      let conj ← Query.and_ [a.toCondition, b.toCondition]
      let neg ← Query.not_ conj
      canonSerialized neg) =
    (do
      let na ← Query.not_ a.toCondition
      let nb ← Query.not_ b.toCondition
      let disj ← Query.or_ [na, nb]
      canonSerialized disj) := by
  cases a <;> cases b <;> rfl

/-- C2: the filter-translator front-end and the algebra front-end agree under
canonicalization on the range example: translating the filter mapping
`{"value": {"$gt": 2, "$lt": 4}}` and serializing yields a body whose
canonical string equals that of the body serialized from the algebra
expression `and(value > 2, value < 4)`. -/
theorem c2_translator_algebra_agreement :
    (do
      let qs ← MongoQueryCondition.make
        (J.obj [("value", J.obj [("$gt", J.int 2), ("$lt", J.int 4)])])
      canonSerialized qs.1) =
    (do
      let c ← Query.and_ [(fieldRef "value").gt_ (J.int 2),
                          (fieldRef "value").lt_ (J.int 4)]
      canonSerialized c) := by
  rfl

set_option maxHeartbeats 2000000 in
/-- C8 (counterexample): the double-negation law `canon(not(not(a))) =
canon(a)` fails for nested conjunctions: with
`a = and(and(x == u, y == v), z == w)` the left side canonicalizes to
`and(not(or(not(x == u), not(y == v))), z == w)` while the right side
canonicalizes to `and(x == u, y == v, z == w)`, because the De Morgan
rewrite introduces fresh `not` nodes that are not re-normalized. -/
theorem c8_double_negation_counterexample :
    (do
      let inner ← Query.and_ [(⟨some "x", J.str "u", some "term", none⟩ : QueryCondition),
                              ⟨some "y", J.str "v", some "term", none⟩]
      let a ← Query.and_ [inner, ⟨some "z", J.str "w", some "term", none⟩]
      let n1 ← Query.not_ a
      let n2 ← Query.not_ n1
      canonSerialized n2) ≠
    (do
      let inner ← Query.and_ [(⟨some "x", J.str "u", some "term", none⟩ : QueryCondition),
                              ⟨some "y", J.str "v", some "term", none⟩]
      let a ← Query.and_ [inner, ⟨some "z", J.str "w", some "term", none⟩]
      canonSerialized a) := by
  intro h
  exact absurd
    (Except.ok.inj
      (show (Except.ok "and(not(or(not(x == u), not(y == v))), z == w)" : Except Err String) =
        Except.ok "and(x == u, y == v, z == w)" from h))
    (by decide)

set_option maxHeartbeats 2000000 in
/-- C8 (amended): for every leaf Condition Tree `a` (a `term`, one-bound
`range`, `exists` or `match_all` leaf, over any field and value),
canonicalizing the serialized body of `not(not(a))` yields the same string as
canonicalizing the serialized body of `a`. -/
theorem c8_double_negation_amended (a : LeafCond) :
    (do
      let n1 ← Query.not_ a.toCondition
      let n2 ← Query.not_ n1
      canonSerialized n2) = canonSerialized a.toCondition := by
  cases a <;> rfl

/-- C3: `and_scorers` and `or_scorers` are never both non-empty in a
constructible Scored Query: construction with both is rejected with the
conflict `ValueError`; a constructed wrapper satisfies the invariant;
combining a wrapper with a scorer of the opposite kind fails; combining two
wrappers whose concatenated scorer lists would mix kinds fails with the
conflict error (provided the condition combination itself does not raise
first); and every successful scorer or wrapper combination satisfies the
invariant. -/
theorem c3_scorer_conflict :
    (∀ (c : QueryCondition) (as os : List ScriptScore) (l : Option Limit),
      as ≠ [] → os ≠ [] →
      QueryConditionWithScoring.init c as os l = .error (.valueError scorerConflictMsg)) ∧
    (∀ (c : QueryCondition) (as os : List ScriptScore) (l : Option Limit)
        (w : QueryConditionWithScoring),
      QueryConditionWithScoring.init c as os l = .ok w →
      w.and_scorers = [] ∨ w.or_scorers = []) ∧
    (∀ (w : QueryConditionWithScoring) (s : ScriptScore),
      w.or_scorers ≠ [] →
      w.and_scorer s =
        .error (.valueError "Cannot add \x27and_scorers\x27 when \x27or_scorers\x27 already exist.")) ∧
    (∀ (w : QueryConditionWithScoring) (s : ScriptScore),
      w.and_scorers ≠ [] →
      w.or_scorer s =
        .error (.valueError "Cannot add \x27or_scorers\x27 when \x27and_scorers\x27 already exist.")) ∧
    (∀ w1 w2 : QueryConditionWithScoring,
      (∀ e, Query.and_ [w1.condition, w2.condition] ≠ .error e) →
      w1.and_scorers ++ w2.and_scorers ≠ [] →
      w1.or_scorers ++ w2.or_scorers ≠ [] →
      w1.and_wrapper w2 = .error (.valueError scorerConflictMsg)) ∧
    (∀ w1 w2 : QueryConditionWithScoring,
      (∀ e, Query.or_ [w1.condition, w2.condition] ≠ .error e) →
      w1.and_scorers ++ w2.and_scorers ≠ [] →
      w1.or_scorers ++ w2.or_scorers ≠ [] →
      w1.or_wrapper w2 = .error (.valueError scorerConflictMsg)) ∧
    (∀ (w : QueryConditionWithScoring) (s : ScriptScore) (r : QueryConditionWithScoring),
      w.and_scorer s = .ok r → r.and_scorers = w.and_scorers ++ [s] ∧ r.or_scorers = []) ∧
    (∀ (w : QueryConditionWithScoring) (s : ScriptScore) (r : QueryConditionWithScoring),
      w.or_scorer s = .ok r → r.or_scorers = w.or_scorers ++ [s] ∧ r.and_scorers = []) ∧
    (∀ w1 w2 r : QueryConditionWithScoring,
      w1.and_wrapper w2 = .ok r → r.and_scorers = [] ∨ r.or_scorers = []) ∧
    (∀ w1 w2 r : QueryConditionWithScoring,
      w1.or_wrapper w2 = .ok r → r.and_scorers = [] ∨ r.or_scorers = []) := by
  have hinit : ∀ (c : QueryCondition) (as os : List ScriptScore) (l : Option Limit)
      (w : QueryConditionWithScoring),
      QueryConditionWithScoring.init c as os l = .ok w →
      w.and_scorers = [] ∨ w.or_scorers = [] := by
    intro c as os l w h
    unfold QueryConditionWithScoring.init at h
    split at h
    · simp at h
    · next hcond =>
      have hw := (Except.ok.inj h).symm
      subst hw
      simp only [Bool.and_eq_true, Bool.not_eq_true', List.isEmpty_eq_false] at hcond
      rcases not_and_or.mp hcond with h1 | h2
      · left
        simpa using h1
      · right
        simpa using h2
  refine ⟨?_, hinit, ?_, ?_, ?_, ?_, ?_, ?_, ?_, ?_⟩
  · intro c as os l ha ho
    unfold QueryConditionWithScoring.init
    split
    · rfl
    · next hcond =>
      simp only [Bool.and_eq_true, Bool.not_eq_true', List.isEmpty_eq_false] at hcond
      exact absurd ⟨by simpa using ha, by simpa using ho⟩ hcond
  · intro w s ho
    unfold QueryConditionWithScoring.and_scorer
    split
    · rfl
    · next hcond =>
      simp only [Bool.not_eq_true', List.isEmpty_eq_false] at hcond
      exact absurd (by simpa using ho) hcond
  · intro w s ha
    unfold QueryConditionWithScoring.or_scorer
    split
    · rfl
    · next hcond =>
      simp only [Bool.not_eq_true', List.isEmpty_eq_false] at hcond
      exact absurd (by simpa using ha) hcond
  · intro w1 w2 hok ha ho
    unfold QueryConditionWithScoring.and_wrapper
    split
    · next e heq => exact absurd heq (hok e)
    · dsimp only
      split
      · rfl
      · next hcond =>
        simp only [Bool.and_eq_true, Bool.not_eq_true', List.isEmpty_eq_false] at hcond
        exact absurd ⟨by simpa using ha, by simpa using ho⟩ hcond
  · intro w1 w2 hok ha ho
    unfold QueryConditionWithScoring.or_wrapper
    split
    · next e heq => exact absurd heq (hok e)
    · dsimp only
      split
      · rfl
      · next hcond =>
        simp only [Bool.and_eq_true, Bool.not_eq_true', List.isEmpty_eq_false] at hcond
        exact absurd ⟨by simpa using ha, by simpa using ho⟩ hcond
  · intro w s r h
    unfold QueryConditionWithScoring.and_scorer at h
    split at h
    · simp at h
    · next hcond =>
      have hr := init_ok_elim h
      subst hr
      simp only [Bool.not_eq_true', List.isEmpty_eq_false] at hcond
      simpa using hcond
  · intro w s r h
    unfold QueryConditionWithScoring.or_scorer at h
    split at h
    · simp at h
    · next hcond =>
      have hr := init_ok_elim h
      subst hr
      simp only [Bool.not_eq_true', List.isEmpty_eq_false] at hcond
      simpa using hcond
  · intro w1 w2 r h
    unfold QueryConditionWithScoring.and_wrapper at h
    split at h
    · simp at h
    · dsimp only at h
      split at h
      · simp at h
      · exact hinit _ _ _ _ _ h
  · intro w1 w2 r h
    unfold QueryConditionWithScoring.or_wrapper at h
    split at h
    · simp at h
    · dsimp only at h
      split at h
      · simp at h
      · exact hinit _ _ _ _ _ h

/-- C3 (witness): the conflict and invariant statements at concrete inputs:
a `match_all` condition and the scorer `doc.score`. -/
theorem c3_scorer_conflict_witness :
    (QueryConditionWithScoring.init ⟨none, J.null, some "match_all", none⟩
      [⟨"doc.score", []⟩] [⟨"doc.score", []⟩] none =
      .error (.valueError scorerConflictMsg)) ∧
    ((⟨⟨none, J.null, some "match_all", none⟩, [⟨"doc.score", []⟩], [], none⟩ :
        QueryConditionWithScoring).and_scorers = [] ∨
     (⟨⟨none, J.null, some "match_all", none⟩, [⟨"doc.score", []⟩], [], none⟩ :
        QueryConditionWithScoring).or_scorers = []) ∧
    ((⟨⟨none, J.null, some "match_all", none⟩, [], [⟨"doc.score", []⟩], none⟩ :
        QueryConditionWithScoring).and_scorer ⟨"doc.score", []⟩ =
      .error (.valueError "Cannot add \x27and_scorers\x27 when \x27or_scorers\x27 already exist.")) ∧
    ((⟨⟨none, J.null, some "match_all", none⟩, [⟨"doc.score", []⟩], [], none⟩ :
        QueryConditionWithScoring).or_scorer ⟨"doc.score", []⟩ =
      .error (.valueError "Cannot add \x27or_scorers\x27 when \x27and_scorers\x27 already exist.")) ∧
    ((⟨⟨none, J.null, some "match_all", none⟩, [⟨"doc.score", []⟩], [], none⟩ :
        QueryConditionWithScoring).and_wrapper
      ⟨⟨none, J.null, some "match_all", none⟩, [], [⟨"doc.score", []⟩], none⟩ =
      .error (.valueError scorerConflictMsg)) ∧
    ((⟨⟨none, J.null, some "match_all", none⟩, [⟨"doc.score", []⟩], [], none⟩ :
        QueryConditionWithScoring).or_wrapper
      ⟨⟨none, J.null, some "match_all", none⟩, [], [⟨"doc.score", []⟩], none⟩ =
      .error (.valueError scorerConflictMsg)) ∧
    ((⟨⟨none, J.null, some "match_all", none⟩, [⟨"doc.score", []⟩], [], none⟩ :
        QueryConditionWithScoring).and_scorers = [] ++ [⟨"doc.score", []⟩] ∧
     (⟨⟨none, J.null, some "match_all", none⟩, [⟨"doc.score", []⟩], [], none⟩ :
        QueryConditionWithScoring).or_scorers = []) ∧
    ((⟨⟨none, J.null, some "match_all", none⟩, [], [⟨"doc.score", []⟩], none⟩ :
        QueryConditionWithScoring).or_scorers = [] ++ [⟨"doc.score", []⟩] ∧
     (⟨⟨none, J.null, some "match_all", none⟩, [], [⟨"doc.score", []⟩], none⟩ :
        QueryConditionWithScoring).and_scorers = []) ∧
    ((⟨⟨none, J.obj [("must", J.arr [J.obj [("match_all", J.obj [])],
          J.obj [("match_all", J.obj [])]])], some "bool", none⟩,
        [⟨"doc.score", []⟩, ⟨"doc.score", []⟩], [], none⟩ :
        QueryConditionWithScoring).and_scorers = [] ∨
     (⟨⟨none, J.obj [("must", J.arr [J.obj [("match_all", J.obj [])],
          J.obj [("match_all", J.obj [])]])], some "bool", none⟩,
        [⟨"doc.score", []⟩, ⟨"doc.score", []⟩], [], none⟩ :
        QueryConditionWithScoring).or_scorers = []) ∧
    ((⟨⟨none, J.obj [("should", J.arr [J.obj [("match_all", J.obj [])],
          J.obj [("match_all", J.obj [])]])], some "bool", none⟩,
        [], [⟨"doc.score", []⟩, ⟨"doc.score", []⟩], none⟩ :
        QueryConditionWithScoring).and_scorers = [] ∨
     (⟨⟨none, J.obj [("should", J.arr [J.obj [("match_all", J.obj [])],
          J.obj [("match_all", J.obj [])]])], some "bool", none⟩,
        [], [⟨"doc.score", []⟩, ⟨"doc.score", []⟩], none⟩ :
        QueryConditionWithScoring).or_scorers = []) := by
  refine ⟨c3_scorer_conflict.1 _ _ _ _ (by simp) (by simp),
    c3_scorer_conflict.2.1 ⟨none, J.null, some "match_all", none⟩ [⟨"doc.score", []⟩] [] none
      ⟨⟨none, J.null, some "match_all", none⟩, [⟨"doc.score", []⟩], [], none⟩ rfl,
    c3_scorer_conflict.2.2.1 _ _ (by simp),
    c3_scorer_conflict.2.2.2.1 _ _ (by simp),
    c3_scorer_conflict.2.2.2.2.1 _ _
      (fun e h => Except.noConfusion
        (show Except.ok (⟨none, J.obj [("must", J.arr [J.obj [("match_all", J.obj [])],
          J.obj [("match_all", J.obj [])]])], some "bool", none⟩ : QueryCondition) =
          Except.error e from h))
      (by simp) (by simp),
    c3_scorer_conflict.2.2.2.2.2.1 _ _
      (fun e h => Except.noConfusion
        (show Except.ok (⟨none, J.obj [("should", J.arr [J.obj [("match_all", J.obj [])],
          J.obj [("match_all", J.obj [])]])], some "bool", none⟩ : QueryCondition) =
          Except.error e from h))
      (by simp) (by simp),
    c3_scorer_conflict.2.2.2.2.2.2.1
      ⟨⟨none, J.null, some "match_all", none⟩, [], [], none⟩ ⟨"doc.score", []⟩
      ⟨⟨none, J.null, some "match_all", none⟩, [⟨"doc.score", []⟩], [], none⟩ rfl,
    c3_scorer_conflict.2.2.2.2.2.2.2.1
      ⟨⟨none, J.null, some "match_all", none⟩, [], [], none⟩ ⟨"doc.score", []⟩
      ⟨⟨none, J.null, some "match_all", none⟩, [], [⟨"doc.score", []⟩], none⟩ rfl,
    c3_scorer_conflict.2.2.2.2.2.2.2.2.1
      ⟨⟨none, J.null, some "match_all", none⟩, [⟨"doc.score", []⟩], [], none⟩
      ⟨⟨none, J.null, some "match_all", none⟩, [⟨"doc.score", []⟩], [], none⟩
      ⟨⟨none, J.obj [("must", J.arr [J.obj [("match_all", J.obj [])], J.obj [("match_all", J.obj [])]])], some "bool", none⟩, [⟨"doc.score", []⟩, ⟨"doc.score", []⟩], [], none⟩ rfl,
    c3_scorer_conflict.2.2.2.2.2.2.2.2.2
      ⟨⟨none, J.null, some "match_all", none⟩, [], [⟨"doc.score", []⟩], none⟩
      ⟨⟨none, J.null, some "match_all", none⟩, [], [⟨"doc.score", []⟩], none⟩
      ⟨⟨none, J.obj [("should", J.arr [J.obj [("match_all", J.obj [])], J.obj [("match_all", J.obj [])]])], some "bool", none⟩, [], [⟨"doc.score", []⟩, ⟨"doc.score", []⟩], none⟩ rfl⟩

/-- C4: on a field reference, equality with a numeric value `v` produces
`or(term(float(v)), term(int(v)))` — so serializing `f == n` yields a
`should` of two `term` leaves, one with the float value and one with the int
value (for `n = 3`, values `3.0` and `3`); equality with a string produces a
single `term` leaf; and equality with a value of any other type (`None`, a
list, a mapping — Python's `bool` counts as numeric, being an `int`
subclass) raises a `TypeError`. -/
theorem c4_numeric_equality_dual_typing :
    (∀ (f : String) (n : Int), (fieldRef f).eq_ (J.int n) =
      .ok ⟨none, J.obj [("should", J.arr
        [J.obj [("term", J.obj [(f, J.float n)])],
         J.obj [("term", J.obj [(f, J.int n)])]])], some "bool", none⟩) ∧
    (∀ (f : String) (n : Int), (fieldRef f).eq_ (J.float n) =
      .ok ⟨none, J.obj [("should", J.arr
        [J.obj [("term", J.obj [(f, J.float n)])],
         J.obj [("term", J.obj [(f, J.int n)])]])], some "bool", none⟩) ∧
    (∀ (f : String) (n : Int),
      (do
        let c ← (fieldRef f).eq_ (J.int n)
        c.to_dict) =
      .ok (J.obj [("bool", J.obj [("should", J.arr
        [J.obj [("term", J.obj [(f, J.float n)])],
         J.obj [("term", J.obj [(f, J.int n)])]])])])) ∧
    (∀ (f s : String), (fieldRef f).eq_ (J.str s) =
      .ok ⟨some f, J.str s, some "term", none⟩) ∧
    (∀ (f : String), (fieldRef f).eq_ J.null =
      .error (.typeError ("Unsupported type for equality comparison: " ++
        pyTypeName J.null ++ ". Must be int, float, or str."))) ∧
    (∀ (f : String) (xs : List J), (fieldRef f).eq_ (J.arr xs) =
      .error (.typeError ("Unsupported type for equality comparison: " ++
        pyTypeName (J.arr xs) ++ ". Must be int, float, or str."))) ∧
    (∀ (f : String) (fs : List (String × J)), (fieldRef f).eq_ (J.obj fs) =
      .error (.typeError ("Unsupported type for equality comparison: " ++
        pyTypeName (J.obj fs) ++ ". Must be int, float, or str."))) := by
  refine ⟨?_, ?_, ?_, ?_, ?_, ?_, ?_⟩ <;> intros <;> rfl

/-- C5: combining two limits with conjunction keeps the minimum and with
disjunction the maximum; `Limit(3) & Limit(4)` is `Limit(3)` and serializes
with `size == 3`, `Limit(3) | Limit(4)` is `Limit(4)` and serializes with
`size == 4`; combining a wrapper with a limit applies the same min (and) /
max (or) rule to an existing limit and adopts the new limit when none was
set; combining two wrappers combines limits by min (and) / max (or), and
when only one side has a limit the defined one wins. -/
theorem c5_limit_combination :
    (∀ a b : Limit, Limit.and_limit a b = ⟨min a.limit b.limit⟩ ∧
      Limit.or_limit a b = ⟨max a.limit b.limit⟩) ∧
    (Limit.and_limit ⟨3⟩ ⟨4⟩ = ⟨3⟩ ∧ Limit.or_limit ⟨3⟩ ⟨4⟩ = ⟨4⟩) ∧
    (QueryConditionWithScoring.to_dict
      ⟨⟨none, J.null, some "match_all", none⟩, [], [], some (Limit.and_limit ⟨3⟩ ⟨4⟩)⟩ =
      .ok (J.obj [("size", J.int 3), ("query", J.obj [("match_all", J.obj [])])])) ∧
    (QueryConditionWithScoring.to_dict
      ⟨⟨none, J.null, some "match_all", none⟩, [], [], some (Limit.or_limit ⟨3⟩ ⟨4⟩)⟩ =
      .ok (J.obj [("size", J.int 4), ("query", J.obj [("match_all", J.obj [])])])) ∧
    (∀ (w : QueryConditionWithScoring) (l : Limit) (r : QueryConditionWithScoring),
      w.and_limit l = .ok r →
      r.limit = some (match w.limit with
                      | none => l
                      | some l0 => ⟨min l0.limit l.limit⟩)) ∧
    (∀ (w : QueryConditionWithScoring) (l : Limit) (r : QueryConditionWithScoring),
      w.or_limit l = .ok r →
      r.limit = some (match w.limit with
                      | none => l
                      | some l0 => ⟨max l0.limit l.limit⟩)) ∧
    (∀ w1 w2 r : QueryConditionWithScoring, w1.and_wrapper w2 = .ok r →
      (w1.limit = none → r.limit = w2.limit) ∧
      (w2.limit = none → r.limit = w1.limit) ∧
      (∀ a b : Limit, w1.limit = some a → w2.limit = some b →
        r.limit = some ⟨min a.limit b.limit⟩)) ∧
    (∀ w1 w2 r : QueryConditionWithScoring, w1.or_wrapper w2 = .ok r →
      (w1.limit = none → r.limit = w2.limit) ∧
      (w2.limit = none → r.limit = w1.limit) ∧
      (∀ a b : Limit, w1.limit = some a → w2.limit = some b →
        r.limit = some ⟨max a.limit b.limit⟩)) := by
  refine ⟨fun a b => ⟨rfl, rfl⟩, ⟨?_, ?_⟩, by rfl, by rfl, ?_, ?_, ?_, ?_⟩
  · show (⟨min 3 4⟩ : Limit) = ⟨3⟩
    norm_num
  · show (⟨max 3 4⟩ : Limit) = ⟨4⟩
    norm_num
  · intro w l r h
    have hr := init_ok_elim h
    subst hr
    rfl
  · intro w l r h
    have hr := init_ok_elim h
    subst hr
    rfl
  · intro w1 w2 r h
    unfold QueryConditionWithScoring.and_wrapper at h
    split at h
    · simp at h
    · dsimp only at h
      split at h
      · simp at h
      · have hr := init_ok_elim h
        subst hr
        refine ⟨fun h1 => ?_, fun h2 => ?_, fun a b h1 h2 => ?_⟩ <;>
          cases hw : w1.limit <;> cases hv : w2.limit <;> simp_all
  · intro w1 w2 r h
    unfold QueryConditionWithScoring.or_wrapper at h
    split at h
    · simp at h
    · dsimp only at h
      split at h
      · simp at h
      · have hr := init_ok_elim h
        subst hr
        refine ⟨fun h1 => ?_, fun h2 => ?_, fun a b h1 h2 => ?_⟩ <;>
          cases hw : w1.limit <;> cases hv : w2.limit <;> simp_all

/-- C5 (witness): the limit-combination rules at concrete wrappers: a
limitless wrapper adopts `Limit(5)`, and wrappers carrying `Limit(3)` and
`Limit(4)` combine to `min` under `&` and `max` under `|`. -/
theorem c5_limit_combination_witness :
    ((⟨⟨none, J.null, some "match_all", none⟩, [], [], none⟩ :
        QueryConditionWithScoring).and_limit ⟨5⟩ =
      .ok ⟨⟨none, J.null, some "match_all", none⟩, [], [], some ⟨5⟩⟩) ∧
    ((⟨⟨none, J.null, some "match_all", none⟩, [], [], some ⟨5⟩⟩ :
        QueryConditionWithScoring).limit = some ⟨5⟩) ∧
    ((⟨⟨none, J.null, some "match_all", none⟩, [], [], some ⟨3⟩⟩ :
        QueryConditionWithScoring).or_limit ⟨5⟩ =
      .ok ⟨⟨none, J.null, some "match_all", none⟩, [], [], some ⟨max 3 5⟩⟩) ∧
    ((⟨⟨none, J.null, some "match_all", none⟩, [], [], some ⟨max 3 5⟩⟩ :
        QueryConditionWithScoring).limit = some ⟨max (3 : Int) 5⟩) ∧
    ((⟨⟨none, J.obj [("must", J.arr [J.obj [("match_all", J.obj [])],
          J.obj [("match_all", J.obj [])]])], some "bool", none⟩,
        [], [], some ⟨min 3 4⟩⟩ : QueryConditionWithScoring).limit =
      some ⟨min (3 : Int) 4⟩) ∧
    ((⟨⟨none, J.obj [("should", J.arr [J.obj [("match_all", J.obj [])],
          J.obj [("match_all", J.obj [])]])], some "bool", none⟩,
        [], [], some ⟨4⟩⟩ : QueryConditionWithScoring).limit = some ⟨4⟩) := by
  refine ⟨rfl, ?_, rfl, ?_, ?_, ?_⟩
  · exact (c5_limit_combination.2.2.2.2.1
      ⟨⟨none, J.null, some "match_all", none⟩, [], [], none⟩ ⟨5⟩
      ⟨⟨none, J.null, some "match_all", none⟩, [], [], some ⟨5⟩⟩ rfl).trans rfl
  · exact (c5_limit_combination.2.2.2.2.2.1
      ⟨⟨none, J.null, some "match_all", none⟩, [], [], some ⟨3⟩⟩ ⟨5⟩
      ⟨⟨none, J.null, some "match_all", none⟩, [], [], some ⟨max 3 5⟩⟩ rfl).trans rfl
  · exact (c5_limit_combination.2.2.2.2.2.2.1
      ⟨⟨none, J.null, some "match_all", none⟩, [], [], some ⟨3⟩⟩
      ⟨⟨none, J.null, some "match_all", none⟩, [], [], some ⟨4⟩⟩
      ⟨⟨none, J.obj [("must", J.arr [J.obj [("match_all", J.obj [])],
          J.obj [("match_all", J.obj [])]])], some "bool", none⟩,
        [], [], some ⟨min 3 4⟩⟩ rfl).2.2 ⟨3⟩ ⟨4⟩ rfl rfl
  · exact ((c5_limit_combination.2.2.2.2.2.2.2
      ⟨⟨none, J.null, some "match_all", none⟩, [], [], none⟩
      ⟨⟨none, J.null, some "match_all", none⟩, [], [], some ⟨4⟩⟩
      ⟨⟨none, J.obj [("should", J.arr [J.obj [("match_all", J.obj [])],
          J.obj [("match_all", J.obj [])]])], some "bool", none⟩,
        [], [], some ⟨4⟩⟩ rfl).1 rfl)

/-- C6: greater-than comparisons are always expressed through negation of
less-than forms: a bare `gt`/`>` comparison normalizes to `not(<=)` and
`gte`/`>=` to `not(<)`, while `lt`/`<` and `lte`/`<=` pass through as plain
comparisons; through the full pipeline `not(f > v)` collapses to the string
of `f <= v` and `not(f >= v)` to that of `f < v`, while a negation wrapping
`<` or `<=` stays an explicit `not(...)`; and the normalized tree of any
input contains no comparison with a greater-than operator, a property the
double-negation reduction and the flattening stage preserve, so no canonical
string renders a `>` or `>=` comparison node. -/
theorem c6_gt_via_negation :
    (∀ (f : String) (v : J),
      _normalize_tree (.comp f "gt" v) = .logical "not" [.comp f "<=" v] ∧
      _normalize_tree (.comp f ">" v) = .logical "not" [.comp f "<=" v] ∧
      _normalize_tree (.comp f "gte" v) = .logical "not" [.comp f "<" v] ∧
      _normalize_tree (.comp f ">=" v) = .logical "not" [.comp f "<" v]) ∧
    (∀ (f : String) (v : J),
      _normalize_tree (.comp f "lt" v) = .comp f "<" v ∧
      _normalize_tree (.comp f "<" v) = .comp f "<" v ∧
      _normalize_tree (.comp f "lte" v) = .comp f "<=" v ∧
      _normalize_tree (.comp f "<=" v) = .comp f "<=" v) ∧
    (∀ (f : String) (v : J),
      normalized_readable_query (mustNotBody (rangeBody f "gt" v)) =
        .ok (_tree_to_string (.comp f "<=" v)) ∧
      normalized_readable_query (mustNotBody (rangeBody f "gte" v)) =
        .ok (_tree_to_string (.comp f "<" v))) ∧
    (∀ (f : String) (v : J),
      normalized_readable_query (mustNotBody (rangeBody f "lt" v)) =
        .ok (_tree_to_string (.logical "not" [.comp f "<" v])) ∧
      normalized_readable_query (mustNotBody (rangeBody f "lte" v)) =
        .ok (_tree_to_string (.logical "not" [.comp f "<=" v]))) ∧
    (∀ t : NodeType,
      noGt (flatten_logical_nodes (_reduce_double_negation (_normalize_tree t))) = true) := by
  refine ⟨fun f v => ⟨rfl, rfl, rfl, rfl⟩, fun f v => ⟨rfl, rfl, rfl, rfl⟩,
    fun f v => ⟨rfl, rfl⟩, fun f v => ⟨rfl, rfl⟩, fun t => ?_⟩
  have h1 : noGt (_normalize_tree t) = true := (normTreeF_noGt (normFuel t) t le_rfl).1
  have h2 : noGt (_reduce_double_negation (_normalize_tree t)) = true :=
    reduceF_noGt (nodeCount (_normalize_tree t)) (_normalize_tree t) h1
  exact flatten_noGt_aux
    (nodeCount (_reduce_double_negation (_normalize_tree t)))
    (_reduce_double_negation (_normalize_tree t)) le_rfl h2

/-- C7 (counterexample): translation is not side-effect-free on its input:
`_parse_mongo_query` pops the `$or` key out of the mapping it is given, so
after translating `{"$or": [{"name": "x"}]}` the mapping is empty rather
than unchanged. -/
theorem c7_translation_purity_counterexample :
    (MongoQueryCondition.make (J.obj [("$or", J.arr [J.obj [("name", J.str "x")]])])).map
      Prod.snd ≠
    .ok (J.obj [("$or", J.arr [J.obj [("name", J.str "x")]])]) := by
  intro h
  have h2 := Except.ok.inj
    (show (Except.ok (J.obj []) : Except Err J) =
      .ok (J.obj [("$or", J.arr [J.obj [("name", J.str "x")]])]) from h)
  simp at h2

/-- C7 (amended): translation leaves the filter mapping unchanged whenever
its top level contains no `$or` and no `$and` key; with such keys present
they are removed from the mapping by the translation. -/
theorem c7_translation_purity_amended (fields : List (String × J))
    (hor : fields.lookup "$or" = none) (hand : fields.lookup "$and" = none) :
    (MongoQueryCondition.make (J.obj fields)).map Prod.snd = .ok (J.obj fields) := by
  match fields, hor, hand with
  | [], _, _ => rfl
  | kv :: fs, hor, hand =>
    unfold MongoQueryCondition.make
    rw [if_neg (by simp [pyTruthy])]
    have hw : mongoWeight (J.obj (kv :: fs)) = mongoWeightFields (kv :: fs) + 1 := by
      simp [mongoWeight, Nat.add_comm]
    rw [hw]
    simp only [_parse_mongo_query]
    rw [popKey_of_lookup_none hor]
    rw [popKey_of_lookup_none hand]
    have hfields : ∀ x ∈ kv :: fs, ∃ y,
        (match x.2 with
         | .obj sub => _handle_field_conditions x.1 sub
         | v => .ok (⟨some x.1, v, some "term", none⟩ : QueryCondition)) = .ok y ∧
        ∃ d, y.to_dict = .ok d := by
      intro x _
      match hx : x.2 with
      | .obj sub => exact handle_field_conditions_ok x.1 sub
      | .null | .bool _ | .int _ | .float _ | .str _ | .arr _ => exact ⟨_, rfl, _, rfl⟩
    obtain ⟨ys, hys, hPs⟩ := mapME_ok_strong hfields
    dsimp only
    rw [hys]
    match ys, hPs with
    | [c], _ => rfl
    | [], _ => rfl
    | c1 :: c2 :: rest, hPs =>
      have hall : ∀ x ∈ c1 :: c2 :: rest, ∃ y, QueryCondition.to_dict x = .ok y ∧ True := by
        intro x hx
        obtain ⟨d, hd⟩ := hPs x hx
        exact ⟨d, hd, trivial⟩
      obtain ⟨ds, hds, _⟩ := mapME_ok_strong hall
      simp only [List.nil_append]
      unfold Query.and_
      rw [hds]
      rfl

/-- C7 (witness): a filter mapping without logical-operator keys is
unchanged by translation. -/
theorem c7_translation_purity_amended_witness :
    (MongoQueryCondition.make (J.obj [("name", J.str "x")])).map Prod.snd =
      .ok (J.obj [("name", J.str "x")]) :=
  c7_translation_purity_amended [("name", J.str "x")] rfl rfl

/-- C10: translating a `bool` body whose `must`, `should` and `must_not`
clause lists all translate merges every `must` child, `should` child and
negated `must_not` child into one logical node whose operator depends only
on the presence of a `must` key (`and` when present, `or` otherwise), except
that a single child in total is returned bare; in particular a `bool` body
with only `must_not` children and more than one of them becomes an `or`
node. -/
theorem c10_bool_clause_merge :
    (∀ (fuel : Nat) (ms ss ns : List J) (tms tss tns : List NodeType),
      mapME (treeF fuel) ms = .ok tms →
      mapME (treeF fuel) ss = .ok tss →
      mapME (fun clause => (treeF fuel clause).map
        (fun t => NodeType.logical "not" [t])) ns = .ok tns →
      tms.length + tss.length + tns.length ≠ 1 →
      treeF (fuel+1) (J.obj [("bool", J.obj
        [("must", J.arr ms), ("should", J.arr ss), ("must_not", J.arr ns)])]) =
        .ok (.logical "and" (tms ++ tss ++ tns))) ∧
    (∀ (fuel : Nat) (ns : List J) (tns : List NodeType),
      mapME (fun clause => (treeF fuel clause).map
        (fun t => NodeType.logical "not" [t])) ns = .ok tns →
      1 < tns.length →
      treeF (fuel+1) (J.obj [("bool", J.obj [("must_not", J.arr ns)])]) =
        .ok (.logical "or" tns)) := by
  constructor
  · intro fuel ms ss ns tms tss tns h1 h2 h3 hlen
    simp only [treeF, List.lookup, String.reduceBEq]
    rw [h1]
    dsimp only
    rw [h2]
    dsimp only
    rw [h3]
    dsimp only
    match hcat : tms ++ tss ++ tns with
    | [] => rfl
    | [c] =>
      exfalso
      have := congrArg List.length hcat
      simp at this
      omega
    | c1 :: c2 :: cs => rfl
  · intro fuel ns tns h3 hlen
    simp only [treeF, List.lookup, String.reduceBEq]
    rw [h3]
    dsimp only
    match hcat : tns with
    | [] => rfl
    | [c] => simp at hlen
    | c1 :: c2 :: cs => rfl

/-- C10 (witness): a `bool` body with one `must` and one `should` child
becomes an `and` node with both children, and a `bool` body with two
`must_not` children becomes an `or` node of their negations. -/
theorem c10_bool_clause_merge_witness :
    treeF 2 (J.obj [("bool", J.obj
      [("must", J.arr [J.obj [("match_all", J.obj [])]]),
       ("should", J.arr [J.obj [("match_all", J.obj [])]]),
       ("must_not", J.arr [])])]) =
      .ok (.logical "and" ([NodeType.matchAllNode] ++ [NodeType.matchAllNode] ++ [])) ∧
    treeF 2 (J.obj [("bool", J.obj
      [("must_not", J.arr [J.obj [("match_all", J.obj [])],
        J.obj [("match_all", J.obj [])]])])]) =
      .ok (.logical "or" [.logical "not" [.matchAllNode], .logical "not" [.matchAllNode]]) :=
  ⟨c10_bool_clause_merge.1 1 [J.obj [("match_all", J.obj [])]]
      [J.obj [("match_all", J.obj [])]] []
      [NodeType.matchAllNode] [NodeType.matchAllNode] [] rfl rfl rfl (by decide),
   c10_bool_clause_merge.2 1
      [J.obj [("match_all", J.obj [])], J.obj [("match_all", J.obj [])]]
      [.logical "not" [.matchAllNode], .logical "not" [.matchAllNode]] rfl (by decide)⟩
